import Mathlib

/-!
Shallow embedding of the tower-defense simulation core (`src/main.zig`).

Machine `f32` arithmetic is modelled by real numbers with `Real.sqrt` in
place of the `@sqrt` intrinsic; `u32`/`usize` fields become `Nat`.  The
fixed-capacity arrays with explicit counts become lists whose length is the
live count; capacity checks compare against the literal capacities
(100 towers, 100 enemies, 200 projectiles, 20 path points).  Swap-remove is
`swapRemove` below.  Draw and sound callouts have no effect on game state
and are omitted.
-/

namespace TD

set_option maxRecDepth 8192

open scoped Classical

noncomputable section

/-- Grid size constant (`GRID_SIZE` in the source). -/
def GRID_SIZE : ℝ := 40

/-- Distance between two points, as the source computes it:
`@sqrt(dx*dx + dy*dy)`. -/
def dist (x1 y1 x2 y2 : ℝ) : ℝ :=
  Real.sqrt ((x1 - x2) * (x1 - x2) + (y1 - y2) * (y1 - y2))

/-- Game phase (`GameState` enum in the source). -/
inductive GameState where
  | Menu
  | Playing
  | Paused
  | GameOver
deriving DecidableEq

/-- Tower kinds (`TowerType` enum in the source). -/
inductive TowerType where
  | None
  | Line
  | Triangle
  | Square
  | Pentagon
deriving DecidableEq

/-- Tower record (`Tower` struct in the source). -/
structure Tower where
  x : ℝ
  y : ℝ
  type : TowerType
  level : ℕ
  cooldown : ℝ
  cooldown_max : ℝ
  range : ℝ
  damage : ℝ
  cost : ℕ

/-- Constructor `Tower.init`.  The source marks the `.None` arm
`unreachable` (every caller guards on a selected kind first); here it
returns an all-zero record. -/
def Tower.init (x y : ℝ) (tower_type : TowerType) : Tower :=
  match tower_type with
  | TowerType.None =>
      { x := x, y := y, type := tower_type, level := 1, cooldown := 0,
        cooldown_max := 0, range := 0, damage := 0, cost := 0 }
  | TowerType.Line =>
      { x := x, y := y, type := tower_type, level := 1, cooldown := 0,
        cooldown_max := 0.5, range := 150, damage := 10, cost := 50 }
  | TowerType.Triangle =>
      { x := x, y := y, type := tower_type, level := 1, cooldown := 0,
        cooldown_max := 1.0, range := 100, damage := 15, cost := 100 }
  | TowerType.Square =>
      { x := x, y := y, type := tower_type, level := 1, cooldown := 0,
        cooldown_max := 0.8, range := 120, damage := 5, cost := 75 }
  | TowerType.Pentagon =>
      { x := x, y := y, type := tower_type, level := 1, cooldown := 0,
        cooldown_max := 1.5, range := 200, damage := 30, cost := 150 }

/-- Cooldown tick of `Tower.update`: subtract the delta only when the
cooldown is positive, then clamp a negative result to zero. -/
def Tower.update (self : Tower) (delta_time : ℝ) : Tower :=
  if 0 < self.cooldown then
    if self.cooldown - delta_time < 0 then { self with cooldown := 0 }
    else { self with cooldown := self.cooldown - delta_time }
  else self

/-- Firing readiness (`Tower.canAttack`). -/
def Tower.canAttack (self : Tower) : Prop := self.cooldown ≤ 0

/-- Cooldown reset after a shot (`Tower.resetCooldown`). -/
def Tower.resetCooldown (self : Tower) : Tower :=
  { self with cooldown := self.cooldown_max }

/-- Path waypoint (`PathPoint` struct). -/
structure PathPoint where
  x : ℝ
  y : ℝ

instance : Inhabited PathPoint := ⟨⟨0, 0⟩⟩

/-- Enemy record (`Enemy` struct). -/
structure Enemy where
  x : ℝ
  y : ℝ
  radius : ℝ
  health : ℝ
  max_health : ℝ
  speed : ℝ
  value : ℕ
  active : Bool
  path_index : ℕ

instance : Inhabited Enemy :=
  ⟨{ x := 0, y := 0, radius := 0, health := 0, max_health := 0, speed := 0,
     value := 0, active := false, path_index := 0 }⟩

/-- Constructor `Enemy.init`. -/
def Enemy.init (x y : ℝ) (health speed : ℝ) (value : ℕ) : Enemy :=
  { x := x, y := y, radius := 15, health := health, max_health := health,
    speed := speed, value := value, active := true, path_index := 0 }

/-- Movement step of `Enemy.update`: walk toward the current waypoint,
advance the waypoint index when within 5 units, and report whether the
path end was reached.  Returns the updated enemy and the `reached_end`
flag. -/
def Enemy.update (self : Enemy) (delta_time : ℝ) (path : List PathPoint) :
    Enemy × Bool :=
  if self.active = false then (self, false)
  else if path.length ≤ self.path_index then (self, true)
  else
    let target := path.getD self.path_index default
    let dx := target.x - self.x
    let dy := target.y - self.y
    let distance := Real.sqrt (dx * dx + dy * dy)
    if distance < 5 then
      if path.length ≤ self.path_index + 1 then
        ({ self with path_index := self.path_index + 1 }, true)
      else ({ self with path_index := self.path_index + 1 }, false)
    else
      let move_distance := self.speed * delta_time
      let scale := move_distance / distance
      ({ self with x := self.x + dx * scale, y := self.y + dy * scale }, false)

/-- Damage application of `Enemy.takeDamage`: subtract and report death. -/
def Enemy.takeDamage (self : Enemy) (amount : ℝ) : Enemy × Bool :=
  ({ self with health := self.health - amount }, self.health - amount ≤ 0)

/-- Projectile record (`Projectile` struct). -/
structure Projectile where
  x : ℝ
  y : ℝ
  target_x : ℝ
  target_y : ℝ
  speed : ℝ
  damage : ℝ
  active : Bool
  tower_type : TowerType

instance : Inhabited Projectile :=
  ⟨{ x := 0, y := 0, target_x := 0, target_y := 0, speed := 0, damage := 0,
     active := false, tower_type := TowerType.None }⟩

/-- Constructor `Projectile.init` (speed fixed at 300). -/
def Projectile.init (x y target_x target_y damage : ℝ)
    (tower_type : TowerType) : Projectile :=
  { x := x, y := y, target_x := target_x, target_y := target_y, speed := 300,
    damage := damage, active := true, tower_type := tower_type }

/-- Movement step of `Projectile.update`: report a hit when within 5 units
of the fixed target, otherwise move toward it. -/
def Projectile.update (self : Projectile) (delta_time : ℝ) :
    Projectile × Bool :=
  if self.active = false then (self, false)
  else
    let dx := self.target_x - self.x
    let dy := self.target_y - self.y
    let distance := Real.sqrt (dx * dx + dy * dy)
    if distance < 5 then (self, true)
    else
      let move_distance := self.speed * delta_time
      let scale := move_distance / distance
      ({ self with x := self.x + dx * scale, y := self.y + dy * scale }, false)

/-- Swap-remove at index `i`: overwrite slot `i` with the last live element
and shrink the live count, as the source does with
`xs[i] = xs[count - 1]; count -= 1`. -/
def swapRemove [Inhabited α] (xs : List α) (i : ℕ) : List α :=
  (xs.set i (xs.getD (xs.length - 1) default)).dropLast

/-- Full game state (`GameData` struct).  Each fixed-capacity array with
its count becomes the list of live elements. -/
structure GameData where
  state : GameState
  towers : List Tower
  enemies : List Enemy
  projectiles : List Projectile
  path : List PathPoint
  selected_tower_type : TowerType
  money : ℕ
  lives : ℕ
  wave : ℕ
  wave_timer : ℝ
  spawn_timer : ℝ
  enemies_to_spawn : ℕ

/-- Fresh state built by `GameData.init`: Menu phase, the default
8-waypoint path, money 100, lives 20, selected kind Line. -/
def GameData.init : GameData :=
  { state := GameState.Menu
    towers := []
    enemies := []
    projectiles := []
    path := [⟨0, 120⟩, ⟨200, 120⟩, ⟨200, 280⟩, ⟨400, 280⟩,
             ⟨400, 120⟩, ⟨600, 120⟩, ⟨600, 400⟩, ⟨800, 400⟩]
    selected_tower_type := TowerType.Line
    money := 100
    lives := 20
    wave := 0
    wave_timer := 0
    spawn_timer := 0
    enemies_to_spawn := 0 }

/-- Wave start (`GameData.startWave`): bump the wave number, queue
`5 + wave*2` enemies, reset the spawn timer. -/
def GameData.startWave (g : GameData) : GameData :=
  { g with wave := g.wave + 1,
           enemies_to_spawn := 5 + (g.wave + 1) * 2,
           spawn_timer := 0 }

/-- Enemy spawn (`GameData.spawnEnemy`): silent no-op at capacity,
otherwise append a wave-scaled enemy at the first waypoint and decrement
the spawn queue. -/
def GameData.spawnEnemy (g : GameData) : GameData :=
  if 100 ≤ g.enemies.length then g
  else
    let health : ℝ := 20 + (g.wave : ℝ) * 5
    let speed : ℝ := 50 + (g.wave : ℝ) * 2
    let value : ℕ := 5 + g.wave
    let p := g.path.getD 0 default
    { g with enemies := g.enemies ++ [Enemy.init p.x p.y health speed value],
             enemies_to_spawn := g.enemies_to_spawn - 1 }

/-- Tower placement (`GameData.addTower`): checks, in source order,
capacity, affordability, clearance from every waypoint, and clearance from
every existing tower; on success appends the tower and pays its cost.
Returns the new state and the success flag. -/
def GameData.addTower (g : GameData) (x y : ℝ) (tower_type : TowerType) :
    GameData × Bool :=
  if 100 ≤ g.towers.length then (g, false)
  else
    let tower := Tower.init x y tower_type
    if g.money < tower.cost then (g, false)
    else if ∃ p ∈ g.path, dist p.x p.y x y < GRID_SIZE then (g, false)
    else if ∃ o ∈ g.towers, dist o.x o.y x y < GRID_SIZE then (g, false)
    else
      ({ g with towers := g.towers ++ [tower],
                money := g.money - tower.cost }, true)

/-- Projectile creation (`GameData.addProjectile`): silent no-op at
capacity, otherwise append. -/
def GameData.addProjectile (g : GameData)
    (x y target_x target_y damage : ℝ) (tower_type : TowerType) : GameData :=
  if 200 ≤ g.projectiles.length then g
  else { g with projectiles :=
          g.projectiles ++ [Projectile.init x y target_x target_y damage tower_type] }

/-- Exported `resetGame`: a fresh `GameData.init` forced into Playing. -/
def resetGame : GameData :=
  { GameData.init with state := GameState.Playing }

/-- Exported `init(width, height)`: the viewport extents only affect
drawing, so the simulation state it creates is `GameData.init`. -/
def initState : GameData := GameData.init

/-- Exported `selectTowerType`: codes 1..4 select the four kinds, anything
else clears the selection. -/
def selectTowerType (g : GameData) (tower_type : ℕ) : GameData :=
  { g with selected_tower_type :=
      if tower_type = 1 then TowerType.Line
      else if tower_type = 2 then TowerType.Triangle
      else if tower_type = 3 then TowerType.Square
      else if tower_type = 4 then TowerType.Pentagon
      else TowerType.None }

theorem length_swapRemove [Inhabited α] (xs : List α) (i : ℕ) :
    (swapRemove xs i).length = xs.length - 1 := by
  simp [swapRemove]

/-- Wave pacing stage of `updateGame`: with no live and no queued enemies,
accumulate the wave timer and start the next wave at the 5-second mark. -/
def updateWaveTimer (g : GameData) (delta_time : ℝ) : GameData :=
  if g.enemies_to_spawn = 0 ∧ g.enemies.length = 0 then
    if 5 ≤ g.wave_timer + delta_time then
      GameData.startWave { g with wave_timer := 0 }
    else { g with wave_timer := g.wave_timer + delta_time }
  else g

/-- Spawning stage of `updateGame`: with enemies queued, accumulate the
spawn timer and spawn one enemy each time it passes 1 second. -/
def updateSpawning (g : GameData) (delta_time : ℝ) : GameData :=
  if 0 < g.enemies_to_spawn then
    if 1 < g.spawn_timer + delta_time then
      GameData.spawnEnemy { g with spawn_timer := 0 }
    else { g with spawn_timer := g.spawn_timer + delta_time }
  else g

/-- Loop body of the target scan: skip inactive enemies, and keep the new
enemy exactly when its distance to the tower is strictly below the best
distance so far. -/
def scanStep (tower : Tower) (acc : Option Enemy × ℝ) (enemy : Enemy) :
    Option Enemy × ℝ :=
  if enemy.active = false then acc
  else if dist enemy.x enemy.y tower.x tower.y < acc.2 then
    (some enemy, dist enemy.x enemy.y tower.x tower.y)
  else acc

/-- Target scan of the tower stage: fold over the enemies keeping the
closest active one found so far, starting from the tower's range, with a
strict `<` comparison. -/
def scanTarget (tower : Tower) (enemies : List Enemy) : Option Enemy × ℝ :=
  enemies.foldl (scanStep tower) (none, tower.range)

/-- Per-tower body of the tower stage: tick the cooldown, and when ready
fire at the scanned target (appending a projectile and resetting the
cooldown). -/
def towerStep (g : GameData) (delta_time : ℝ) (tower : Tower) :
    GameData × Tower :=
  let tw := Tower.update tower delta_time
  if Tower.canAttack tw then
    match (scanTarget tw g.enemies).1 with
    | some enemy =>
        (g.addProjectile tw.x tw.y enemy.x enemy.y tw.damage tw.type,
         Tower.resetCooldown tw)
    | none => (g, tw)
  else (g, tw)

/-- Tower stage of `updateGame`: process the towers in order; each tower
sees the projectiles appended by the earlier ones, while the enemies list
is read-only in this stage. -/
def updateTowers (g : GameData) (delta_time : ℝ) : GameData :=
  let r := g.towers.foldl
    (fun acc tower =>
      let s := towerStep acc.1 delta_time tower
      (s.1, acc.2 ++ [s.2]))
    (g, [])
  { r.1 with towers := r.2 }

/-- Enemy stage of `updateGame` (the `while (i < enemy_count)` loop): move
enemy `i`; when it reaches the path end, decrement lives, swap-remove it,
flip the phase to GameOver when lives hit 0, and stay at index `i`;
otherwise store the moved enemy and advance to `i + 1`. -/
def enemyLoop (g : GameData) (delta_time : ℝ) (i : ℕ) : GameData :=
  if h : i < g.enemies.length then
    let r := Enemy.update (g.enemies.getD i default) delta_time g.path
    if r.2 then
      let g1 : GameData :=
        { g with lives := g.lives - 1,
                 enemies := swapRemove (g.enemies.set i r.1) i }
      enemyLoop
        { g1 with state :=
            if g1.lives = 0 then GameState.GameOver else g1.state }
        delta_time i
    else enemyLoop { g with enemies := g.enemies.set i r.1 } delta_time (i + 1)
  else g
termination_by g.enemies.length - i
decreasing_by
  all_goals first
  | omega
  | (simp only [length_swapRemove, List.length_set]; omega)

/-- Splash resolution of a Triangle impact (the inner `while (k < ...)`
loop): every active enemy within 50 units of the impact point takes
linearly scaled damage; a killed enemy pays its value into money and is
swap-removed, re-running the same index, which now holds the swapped-in
enemy. -/
def splashLoop (enemies : List Enemy) (money : ℕ) (tx ty damage : ℝ)
    (k : ℕ) : List Enemy × ℕ :=
  if h : k < enemies.length then
    let se := enemies.getD k default
    if se.active = false then splashLoop enemies money tx ty damage (k + 1)
    else if dist se.x se.y tx ty < 50 then
      let r := Enemy.takeDamage se (damage * (1 - dist se.x se.y tx ty / 50))
      if r.2 then
        splashLoop (swapRemove (enemies.set k r.1) k) (money + se.value)
          tx ty damage k
      else splashLoop (enemies.set k r.1) money tx ty damage (k + 1)
    else splashLoop enemies money tx ty damage (k + 1)
  else (enemies, money)
termination_by enemies.length - k
decreasing_by
  all_goals first
  | omega
  | (simp only [length_swapRemove, List.length_set]; omega)

/-- Impact scan of the projectile stage (the `while (j < enemy_count)`
loop): find the first active enemy whose distance to the projectile's
target point is below its radius and resolve by tower kind.  In the
Square and plain branches a kill swap-removes the enemy and, as in the
source, the `continue` that follows skips the `break`, so the scan keeps
running at the same index whenever the killed enemy was not in the last
slot; the recursive call reproduces both that case and the break-at-end
case (where it returns at once). -/
def hitScan (enemies : List Enemy) (money : ℕ) (p : Projectile) (j : ℕ) :
    List Enemy × ℕ :=
  if h : j < enemies.length then
    let enemy := enemies.getD j default
    if enemy.active = false then hitScan enemies money p (j + 1)
    else if dist enemy.x enemy.y p.target_x p.target_y < enemy.radius then
      if p.tower_type = TowerType.Triangle then
        splashLoop enemies money p.target_x p.target_y p.damage 0
      else if p.tower_type = TowerType.Square then
        let r := Enemy.takeDamage { enemy with speed := enemy.speed * 0.8 }
          p.damage
        if r.2 then
          hitScan (swapRemove (enemies.set j r.1) j) (money + enemy.value) p j
        else (enemies.set j r.1, money)
      else
        let r := Enemy.takeDamage enemy p.damage
        if r.2 then
          hitScan (swapRemove (enemies.set j r.1) j) (money + enemy.value) p j
        else (enemies.set j r.1, money)
    else hitScan enemies money p (j + 1)
  else (enemies, money)
termination_by enemies.length - j
decreasing_by
  all_goals first
  | omega
  | (simp only [length_swapRemove, List.length_set]; omega)

/-- Projectile stage of `updateGame` (the final `while` loop): move each
projectile; on reaching its target run the impact scan over the enemies
and swap-remove the projectile, staying at the same index; otherwise store
the moved projectile and advance. -/
def projLoop (g : GameData) (delta_time : ℝ) (i : ℕ) : GameData :=
  if h : i < g.projectiles.length then
    let p := g.projectiles.getD i default
    let r := Projectile.update p delta_time
    if r.2 then
      let hs := hitScan g.enemies g.money p 0
      projLoop
        { g with enemies := hs.1, money := hs.2,
                 projectiles := swapRemove g.projectiles i }
        delta_time i
    else
      projLoop { g with projectiles := g.projectiles.set i r.1 } delta_time
        (i + 1)
  else g
termination_by g.projectiles.length - i
decreasing_by
  all_goals first
  | omega
  | (simp only [length_swapRemove, List.length_set]; omega)

/-- Update phase of the exported `update` while Playing (`updateGame` in
the source): wave pacing, spawning, towers, enemies, projectiles, in that
order. -/
def updateGame (g : GameData) (delta_time : ℝ) : GameData :=
  projLoop
    (enemyLoop
      (updateTowers (updateSpawning (updateWaveTimer g delta_time) delta_time)
        delta_time)
      delta_time 0)
    delta_time 0

/-- Exported `update`: outside Playing only a static overlay is drawn and
the state is untouched; while Playing the update phase runs (drawing has
no effect on game state). -/
def update (g : GameData) (delta_time : ℝ) : GameData :=
  if g.state ≠ GameState.Playing then g else updateGame g delta_time

/-- Exported `handleClick`: Menu and Paused resume Playing, GameOver does
a full reset, and in Playing a placement of the selected kind is
attempted at the containing grid cell's center. -/
def handleClick (g : GameData) (x y : ℝ) : GameData :=
  if g.state = GameState.Menu then { g with state := GameState.Playing }
  else if g.state = GameState.Paused then { g with state := GameState.Playing }
  else if g.state = GameState.GameOver then resetGame
  else if g.selected_tower_type ≠ TowerType.None then
    (g.addTower ((⌊x / GRID_SIZE⌋ : ℝ) * GRID_SIZE + GRID_SIZE / 2)
      ((⌊y / GRID_SIZE⌋ : ℝ) * GRID_SIZE + GRID_SIZE / 2)
      g.selected_tower_type).1
  else g

/-- Exported `canPlaceTower`: read-only placement validation at the given
point, in source order (phase, selection, affordability, waypoint
clearance, tower clearance). -/
def canPlaceTower (g : GameData) (x y : ℝ) : Bool :=
  if g.state ≠ GameState.Playing then false
  else if g.selected_tower_type = TowerType.None then false
  else if g.money < (Tower.init x y g.selected_tower_type).cost then false
  else if ∃ p ∈ g.path, dist p.x p.y x y < GRID_SIZE then false
  else if ∃ o ∈ g.towers, dist o.x o.y x y < GRID_SIZE then false
  else true

/-- Modelled from the spec: the TS loader declares and calls a module
export `getTowerRange`, but no implementation of it exists under `src/`;
per the spec it returns the range of the currently selected kind, and 0
when no kind is selected. -/
def getTowerRange (g : GameData) : ℝ :=
  match g.selected_tower_type with
  | TowerType.None => 0
  | TowerType.Line => 150
  | TowerType.Triangle => 100
  | TowerType.Square => 120
  | TowerType.Pentagon => 200

/-- Specification-side per-enemy effect of a Triangle splash with the
given damage at impact point `(tx, ty)`, following the spec text: an
active enemy within 50 units takes `damage * (1 - dist/50)` and is gone
when its health drops to 0 or below; any other enemy is untouched. -/
def splashOne (tx ty damage : ℝ) (e : Enemy) : Option Enemy :=
  if e.active = false then some e
  else if dist e.x e.y tx ty < 50 then
    if e.health - damage * (1 - dist e.x e.y tx ty / 50) ≤ 0 then none
    else some { e with health := e.health - damage * (1 - dist e.x e.y tx ty / 50) }
  else some e

/-- Money a Triangle splash awards: the summed values of the enemies the
splash kills. -/
def splashKillSum (tx ty damage : ℝ) (es : List Enemy) : ℕ :=
  (es.map (fun e => if splashOne tx ty damage e = none then e.value else 0)).sum

/-- Capacity invariant of the three entity collections. -/
def Inv (g : GameData) : Prop :=
  g.towers.length ≤ 100 ∧ g.enemies.length ≤ 100 ∧ g.projectiles.length ≤ 200

instance : Inhabited Tower := ⟨Tower.init 0 0 TowerType.None⟩

theorem dist_eval {x1 y1 x2 y2 d : ℝ} (hd : 0 ≤ d)
    (h : (x1 - x2) * (x1 - x2) + (y1 - y2) * (y1 - y2) = d * d) :
    dist x1 y1 x2 y2 = d := by
  rw [dist, h, show d * d = d ^ 2 by ring, Real.sqrt_sq hd]

theorem dist_lt {x1 y1 x2 y2 c : ℝ} (hc : 0 < c)
    (h : (x1 - x2) * (x1 - x2) + (y1 - y2) * (y1 - y2) < c * c) :
    dist x1 y1 x2 y2 < c := by
  rw [dist, Real.sqrt_lt' hc]
  calc (x1 - x2) * (x1 - x2) + (y1 - y2) * (y1 - y2) < c * c := h
    _ = c ^ 2 := by ring

theorem le_dist {x1 y1 x2 y2 c : ℝ} (hc : 0 ≤ c)
    (h : c * c ≤ (x1 - x2) * (x1 - x2) + (y1 - y2) * (y1 - y2)) :
    c ≤ dist x1 y1 x2 y2 := by
  rw [dist]
  calc c = Real.sqrt (c * c) := by
        rw [show c * c = c ^ 2 by ring, Real.sqrt_sq hc]
    _ ≤ _ := Real.sqrt_le_sqrt h

/-- C9: the engine exposes a `getTowerRange` operation returning the range
of the currently selected tower kind, and 0 when no kind is selected
(the implementation is modelled from the spec, since only its declaration
and caller exist in the repository's sources). -/
theorem getTowerRange_spec (g : GameData) (x y : ℝ) :
    getTowerRange g =
      if g.selected_tower_type = TowerType.None then 0
      else (Tower.init x y g.selected_tower_type).range := by
  cases h : g.selected_tower_type <;> simp [getTowerRange, Tower.init, h]

/-- C10: a fresh game (after `init` or `resetGame`) has the Line kind
already selected, so the first click while Playing attempts to place a
Line tower (cost 50) at the clicked grid cell even when `selectTowerType`
was never called. -/
theorem fresh_game_selects_line :
    initState.selected_tower_type = TowerType.Line ∧
    resetGame.selected_tower_type = TowerType.Line ∧
    resetGame.state = GameState.Playing ∧
    (Tower.init 0 0 TowerType.Line).cost = 50 ∧
    ∀ x y : ℝ, handleClick resetGame x y =
      (resetGame.addTower
        ((⌊x / GRID_SIZE⌋ : ℝ) * GRID_SIZE + GRID_SIZE / 2)
        ((⌊y / GRID_SIZE⌋ : ℝ) * GRID_SIZE + GRID_SIZE / 2)
        TowerType.Line).1 := by
  refine ⟨rfl, rfl, rfl, rfl, fun x y => ?_⟩
  simp [handleClick, resetGame, GameData.init]

/-- C4: a placement attempt the player cannot afford fails and changes
nothing, and a successful placement subtracts exactly the cost (so the
guarded unsigned subtraction never underflows and money stays
non-negative). -/
theorem addTower_affordability (g : GameData) (x y : ℝ) (tt : TowerType) :
    (g.money < (Tower.init x y tt).cost → g.addTower x y tt = (g, false)) ∧
    (∀ g' : GameData, g.addTower x y tt = (g', true) →
      (Tower.init x y tt).cost ≤ g.money ∧
      g'.money + (Tower.init x y tt).cost = g.money ∧
      g'.towers = g.towers ++ [Tower.init x y tt]) := by
  constructor
  · intro hpoor
    simp only [GameData.addTower]
    split_ifs with h1 h2 h3 h4 <;> first | rfl | exact absurd hpoor (by assumption)
  · intro g' hsucc
    simp only [GameData.addTower] at hsucc
    split_ifs at hsucc with h1 h2 h3 h4 <;>
      simp only [Prod.mk.injEq] at hsucc
    case _ => exact absurd hsucc.2 (by simp)
    case _ => exact absurd hsucc.2 (by simp)
    case _ => exact absurd hsucc.2 (by simp)
    case _ => exact absurd hsucc.2 (by simp)
    case _ =>
      obtain ⟨h5, -⟩ := hsucc
      subst h5
      refine ⟨le_of_not_lt h2, ?_, rfl⟩
      have h6 : (Tower.init x y tt).cost ≤ g.money := le_of_not_lt h2
      show g.money - (Tower.init x y tt).cost + (Tower.init x y tt).cost = g.money
      omega

theorem Tower.update_x (t : Tower) (dt : ℝ) : (Tower.update t dt).x = t.x := by
  rw [Tower.update]; split_ifs <;> rfl

theorem Tower.update_y (t : Tower) (dt : ℝ) : (Tower.update t dt).y = t.y := by
  rw [Tower.update]; split_ifs <;> rfl

/-- Net effect of the tower-stage body on one tower: tick, then reset the
cooldown exactly when the tower is ready and the scan finds a target.
This depends only on the enemies list, which the tower stage never
mutates. -/
def towerFire (enemies : List Enemy) (dt : ℝ) (tower : Tower) : Tower :=
  let tw := Tower.update tower dt
  if Tower.canAttack tw then
    match (scanTarget tw enemies).1 with
    | some _ => Tower.resetCooldown tw
    | none => tw
  else tw

theorem towerStep_snd (g : GameData) (dt : ℝ) (tower : Tower) :
    (towerStep g dt tower).2 = towerFire g.enemies dt tower := by
  rw [towerStep, towerFire]
  split_ifs with h
  · cases (scanTarget (Tower.update tower dt) g.enemies).1 <;> rfl
  · rfl

theorem addProjectile_frame (g : GameData) (x y tx ty dmg : ℝ)
    (tt : TowerType) :
    (g.addProjectile x y tx ty dmg tt).enemies = g.enemies ∧
    (g.addProjectile x y tx ty dmg tt).towers = g.towers ∧
    (g.addProjectile x y tx ty dmg tt).state = g.state ∧
    (g.addProjectile x y tx ty dmg tt).path = g.path ∧
    (g.addProjectile x y tx ty dmg tt).money = g.money ∧
    (g.addProjectile x y tx ty dmg tt).lives = g.lives ∧
    (g.addProjectile x y tx ty dmg tt).selected_tower_type =
      g.selected_tower_type ∧
    (g.addProjectile x y tx ty dmg tt).wave = g.wave ∧
    (g.addProjectile x y tx ty dmg tt).wave_timer = g.wave_timer ∧
    (g.addProjectile x y tx ty dmg tt).spawn_timer = g.spawn_timer ∧
    (g.addProjectile x y tx ty dmg tt).enemies_to_spawn =
      g.enemies_to_spawn := by
  rw [GameData.addProjectile]; split_ifs <;> simp

theorem addProjectile_length (g : GameData) (x y tx ty dmg : ℝ)
    (tt : TowerType) :
    (g.addProjectile x y tx ty dmg tt).projectiles.length ≤
      max g.projectiles.length 200 := by
  rw [GameData.addProjectile]; split_ifs with h <;> simp <;> omega

theorem addProjectile_mem (g : GameData) (x y tx ty dmg : ℝ)
    (tt : TowerType) :
    ∀ p ∈ (g.addProjectile x y tx ty dmg tt).projectiles,
      p ∈ g.projectiles ∨ (p.x = x ∧ p.y = y) := by
  intro p hp
  rw [GameData.addProjectile] at hp
  split_ifs at hp with h
  · exact Or.inl hp
  · simp at hp
    rcases hp with hp | hp
    · exact Or.inl hp
    · subst hp; exact Or.inr ⟨rfl, rfl⟩

theorem towerStep_fst (g : GameData) (dt : ℝ) (tower : Tower) :
    (towerStep g dt tower).1.enemies = g.enemies ∧
    (towerStep g dt tower).1.towers = g.towers ∧
    (towerStep g dt tower).1.state = g.state ∧
    (towerStep g dt tower).1.path = g.path ∧
    (towerStep g dt tower).1.money = g.money ∧
    (towerStep g dt tower).1.lives = g.lives ∧
    (towerStep g dt tower).1.selected_tower_type = g.selected_tower_type ∧
    (towerStep g dt tower).1.wave = g.wave ∧
    (towerStep g dt tower).1.wave_timer = g.wave_timer ∧
    (towerStep g dt tower).1.spawn_timer = g.spawn_timer ∧
    (towerStep g dt tower).1.enemies_to_spawn = g.enemies_to_spawn ∧
    (towerStep g dt tower).1.projectiles.length ≤
      max g.projectiles.length 200 ∧
    ∀ p ∈ (towerStep g dt tower).1.projectiles,
      p ∈ g.projectiles ∨ (p.x = tower.x ∧ p.y = tower.y) := by
  rw [towerStep]
  split_ifs with h
  · cases hscan : (scanTarget (Tower.update tower dt) g.enemies).1 with
    | none =>
        refine ⟨rfl, rfl, rfl, rfl, rfl, rfl, rfl, rfl, rfl, rfl, rfl,
          le_max_left _ _, fun p hp => Or.inl hp⟩
    | some e =>
        refine ⟨(addProjectile_frame ..).1, (addProjectile_frame ..).2.1,
          (addProjectile_frame ..).2.2.1, (addProjectile_frame ..).2.2.2.1,
          (addProjectile_frame ..).2.2.2.2.1,
          (addProjectile_frame ..).2.2.2.2.2.1,
          (addProjectile_frame ..).2.2.2.2.2.2.1,
          (addProjectile_frame ..).2.2.2.2.2.2.2.1,
          (addProjectile_frame ..).2.2.2.2.2.2.2.2.1,
          (addProjectile_frame ..).2.2.2.2.2.2.2.2.2.1,
          (addProjectile_frame ..).2.2.2.2.2.2.2.2.2.2,
          addProjectile_length .., ?_⟩
        intro p hp
        rcases addProjectile_mem g (Tower.update tower dt).x
          (Tower.update tower dt).y e.x e.y (Tower.update tower dt).damage
          (Tower.update tower dt).type p hp with h1 | h1
        · exact Or.inl h1
        · right
          rw [Tower.update_x] at h1
          rw [Tower.update_y] at h1
          exact h1
  · exact ⟨rfl, rfl, rfl, rfl, rfl, rfl, rfl, rfl, rfl, rfl, rfl,
      le_max_left _ _, fun p hp => Or.inl hp⟩

theorem towers_fold_aux (dt : ℝ) (tws : List Tower) :
    ∀ (h : GameData) (ts : List Tower),
      (tws.foldl
        (fun acc tower =>
          let s := towerStep acc.1 dt tower
          (s.1, acc.2 ++ [s.2])) (h, ts)).2 =
        ts ++ tws.map (towerFire h.enemies dt) ∧
      (tws.foldl
        (fun acc tower =>
          let s := towerStep acc.1 dt tower
          (s.1, acc.2 ++ [s.2])) (h, ts)).1.enemies = h.enemies ∧
      (tws.foldl
        (fun acc tower =>
          let s := towerStep acc.1 dt tower
          (s.1, acc.2 ++ [s.2])) (h, ts)).1.state = h.state ∧
      (tws.foldl
        (fun acc tower =>
          let s := towerStep acc.1 dt tower
          (s.1, acc.2 ++ [s.2])) (h, ts)).1.towers = h.towers ∧
      (tws.foldl
        (fun acc tower =>
          let s := towerStep acc.1 dt tower
          (s.1, acc.2 ++ [s.2])) (h, ts)).1.path = h.path ∧
      (tws.foldl
        (fun acc tower =>
          let s := towerStep acc.1 dt tower
          (s.1, acc.2 ++ [s.2])) (h, ts)).1.money = h.money ∧
      (tws.foldl
        (fun acc tower =>
          let s := towerStep acc.1 dt tower
          (s.1, acc.2 ++ [s.2])) (h, ts)).1.lives = h.lives ∧
      (tws.foldl
        (fun acc tower =>
          let s := towerStep acc.1 dt tower
          (s.1, acc.2 ++ [s.2])) (h, ts)).1.selected_tower_type =
        h.selected_tower_type ∧
      (tws.foldl
        (fun acc tower =>
          let s := towerStep acc.1 dt tower
          (s.1, acc.2 ++ [s.2])) (h, ts)).1.wave = h.wave ∧
      (tws.foldl
        (fun acc tower =>
          let s := towerStep acc.1 dt tower
          (s.1, acc.2 ++ [s.2])) (h, ts)).1.wave_timer = h.wave_timer ∧
      (tws.foldl
        (fun acc tower =>
          let s := towerStep acc.1 dt tower
          (s.1, acc.2 ++ [s.2])) (h, ts)).1.spawn_timer = h.spawn_timer ∧
      (tws.foldl
        (fun acc tower =>
          let s := towerStep acc.1 dt tower
          (s.1, acc.2 ++ [s.2])) (h, ts)).1.enemies_to_spawn =
        h.enemies_to_spawn ∧
      (tws.foldl
        (fun acc tower =>
          let s := towerStep acc.1 dt tower
          (s.1, acc.2 ++ [s.2])) (h, ts)).1.projectiles.length ≤
        max h.projectiles.length 200 ∧
      ∀ p ∈ (tws.foldl
        (fun acc tower =>
          let s := towerStep acc.1 dt tower
          (s.1, acc.2 ++ [s.2])) (h, ts)).1.projectiles,
        p ∈ h.projectiles ∨ ∃ tower ∈ tws, p.x = tower.x ∧ p.y = tower.y := by
  induction tws with
  | nil => intro h ts; simp
  | cons tower tws ih =>
      intro h ts
      simp only [List.foldl_cons]
      obtain ⟨f1, f2, f3, f4, f5, f6, f7, f8, f9, f10, f11, f12, f13⟩ :=
        towerStep_fst h dt tower
      obtain ⟨i1, i2, i3, i4, i5, i6, i7, i8, i9, i10, i11, i12, i13, i14⟩ :=
        ih (towerStep h dt tower).1 (ts ++ [(towerStep h dt tower).2])
      refine ⟨?_, by rw [i2, f1], by rw [i3, f3], by rw [i4, f2],
        by rw [i5, f4], by rw [i6, f5], by rw [i7, f6], by rw [i8, f7],
        by rw [i9, f8], by rw [i10, f9], by rw [i11, f10], by rw [i12, f11],
        le_trans i13 (by have := f12; omega),
        ?_⟩
      · rw [i1, f1, towerStep_snd]
        simp [List.map_cons]
      · intro p hp
        rcases i14 p hp with h1 | h1
        · rcases f13 p h1 with h2 | h2
          · exact Or.inl h2
          · exact Or.inr ⟨tower, List.mem_cons_self .., h2⟩
        · obtain ⟨tw, htw, he⟩ := h1
          exact Or.inr ⟨tw, List.mem_cons_of_mem _ htw, he⟩

theorem updateTowers_spec (g : GameData) (dt : ℝ) :
    (updateTowers g dt).towers = g.towers.map (towerFire g.enemies dt) ∧
    (updateTowers g dt).enemies = g.enemies ∧
    (updateTowers g dt).state = g.state ∧
    (updateTowers g dt).path = g.path ∧
    (updateTowers g dt).money = g.money ∧
    (updateTowers g dt).lives = g.lives ∧
    (updateTowers g dt).selected_tower_type = g.selected_tower_type ∧
    (updateTowers g dt).wave = g.wave ∧
    (updateTowers g dt).wave_timer = g.wave_timer ∧
    (updateTowers g dt).spawn_timer = g.spawn_timer ∧
    (updateTowers g dt).enemies_to_spawn = g.enemies_to_spawn ∧
    (updateTowers g dt).projectiles.length ≤ max g.projectiles.length 200 ∧
    ∀ p ∈ (updateTowers g dt).projectiles,
      p ∈ g.projectiles ∨ ∃ tower ∈ g.towers, p.x = tower.x ∧ p.y = tower.y := by
  obtain ⟨i1, i2, i3, i4, i5, i6, i7, i8, i9, i10, i11, i12, i13, i14⟩ :=
    towers_fold_aux dt g.towers g []
  rw [updateTowers]
  exact ⟨by rw [i1]; simp, i2, i3, i5, i6, i7, i8, i9, i10, i11, i12,
    i13, i14⟩

theorem splashLoop_len (es : List Enemy) (m : ℕ) (tx ty dmg : ℝ) (k : ℕ) :
    (splashLoop es m tx ty dmg k).1.length ≤ es.length := by
  induction es, m, tx, ty, dmg, k using splashLoop.induct with
  | case1 es m tx ty dmg k hk se hact ih =>
      have heq : splashLoop es m tx ty dmg k =
          splashLoop es m tx ty dmg (k + 1) := by
        rw [splashLoop, dif_pos hk, if_pos hact]
      rw [heq]; exact ih
  | case2 es m tx ty dmg k hk se hact hd r hkill ih =>
      have heq : splashLoop es m tx ty dmg k =
          splashLoop (swapRemove (es.set k r.1) k) (m + se.value)
            tx ty dmg k := by
        rw [splashLoop, dif_pos hk, if_neg hact, if_pos hd, if_pos hkill]
      rw [heq]
      refine le_trans ih ?_
      rw [length_swapRemove]
      simp
  | case3 es m tx ty dmg k hk se hact hd r hkill ih =>
      have heq : splashLoop es m tx ty dmg k =
          splashLoop (es.set k r.1) m tx ty dmg (k + 1) := by
        rw [splashLoop, dif_pos hk, if_neg hact, if_pos hd, if_neg hkill]
      rw [heq]
      exact le_trans ih (by simp)
  | case4 es m tx ty dmg k hk se hact hd ih =>
      have heq : splashLoop es m tx ty dmg k =
          splashLoop es m tx ty dmg (k + 1) := by
        rw [splashLoop, dif_pos hk, if_neg hact, if_neg hd]
      rw [heq]; exact ih
  | case5 es m tx ty dmg k hk =>
      rw [splashLoop, dif_neg hk]

theorem hitScan_len (es : List Enemy) (m : ℕ) (p : Projectile) (j : ℕ) :
    (hitScan es m p j).1.length ≤ es.length := by
  induction es, m, p, j using hitScan.induct with
  | case1 es m p j hj enemy hact ih =>
      have heq : hitScan es m p j = hitScan es m p (j + 1) := by
        rw [hitScan, dif_pos hj, if_pos hact]
      rw [heq]; exact ih
  | case2 es m p j hj enemy hact hd htri =>
      have heq : hitScan es m p j =
          splashLoop es m p.target_x p.target_y p.damage 0 := by
        rw [hitScan, dif_pos hj, if_neg hact, if_pos hd, if_pos htri]
      rw [heq]
      exact splashLoop_len ..
  | case3 es m p j hj enemy hact hd htri hsq r hkill ih =>
      have heq : hitScan es m p j =
          hitScan (swapRemove (es.set j r.1) j) (m + enemy.value) p j := by
        rw [hitScan, dif_pos hj, if_neg hact, if_pos hd, if_neg htri,
          if_pos hsq, if_pos hkill]
      rw [heq]
      refine le_trans ih ?_
      rw [length_swapRemove]
      simp
  | case4 es m p j hj enemy hact hd htri hsq r hkill =>
      have heq : hitScan es m p j = (es.set j r.1, m) := by
        rw [hitScan, dif_pos hj, if_neg hact, if_pos hd, if_neg htri,
          if_pos hsq, if_neg hkill]
      rw [heq]
      simp
  | case5 es m p j hj enemy hact hd htri hsq r hkill ih =>
      have heq : hitScan es m p j =
          hitScan (swapRemove (es.set j r.1) j) (m + enemy.value) p j := by
        rw [hitScan, dif_pos hj, if_neg hact, if_pos hd, if_neg htri,
          if_neg hsq, if_pos hkill]
      rw [heq]
      refine le_trans ih ?_
      rw [length_swapRemove]
      simp
  | case6 es m p j hj enemy hact hd htri hsq r hkill =>
      have heq : hitScan es m p j = (es.set j r.1, m) := by
        rw [hitScan, dif_pos hj, if_neg hact, if_pos hd, if_neg htri,
          if_neg hsq, if_neg hkill]
      rw [heq]
      simp
  | case7 es m p j hj enemy hact hd ih =>
      have heq : hitScan es m p j = hitScan es m p (j + 1) := by
        rw [hitScan, dif_pos hj, if_neg hact, if_neg hd]
      rw [heq]; exact ih
  | case8 es m p j hj =>
      rw [hitScan, dif_neg hj]

theorem enemyLoop_step_reached (g : GameData) (dt : ℝ) (i : ℕ)
    (hi : i < g.enemies.length)
    (hr : ((g.enemies.getD i default).update dt g.path).2 = true) :
    enemyLoop g dt i =
      enemyLoop
        { g with
            lives := g.lives - 1,
            enemies :=
              swapRemove
                (g.enemies.set i ((g.enemies.getD i default).update dt g.path).1) i,
            state :=
              if g.lives - 1 = 0 then GameState.GameOver else g.state }
        dt i := by
  rw [enemyLoop, dif_pos hi, if_pos hr]

theorem enemyLoop_step_moved (g : GameData) (dt : ℝ) (i : ℕ)
    (hi : i < g.enemies.length)
    (hr : ¬ ((g.enemies.getD i default).update dt g.path).2 = true) :
    enemyLoop g dt i =
      enemyLoop
        { g with
            enemies :=
              g.enemies.set i ((g.enemies.getD i default).update dt g.path).1 }
        dt (i + 1) := by
  rw [enemyLoop, dif_pos hi, if_neg hr]

theorem enemyLoop_exit (g : GameData) (dt : ℝ) (i : ℕ)
    (hi : ¬ i < g.enemies.length) : enemyLoop g dt i = g := by
  rw [enemyLoop, dif_neg hi]

theorem enemyLoop_frame (g : GameData) (dt : ℝ) (i : ℕ) :
    (enemyLoop g dt i).towers = g.towers ∧
    (enemyLoop g dt i).projectiles = g.projectiles ∧
    (enemyLoop g dt i).path = g.path ∧
    (enemyLoop g dt i).selected_tower_type = g.selected_tower_type ∧
    (enemyLoop g dt i).money = g.money ∧
    (enemyLoop g dt i).wave = g.wave ∧
    (enemyLoop g dt i).wave_timer = g.wave_timer ∧
    (enemyLoop g dt i).spawn_timer = g.spawn_timer ∧
    (enemyLoop g dt i).enemies_to_spawn = g.enemies_to_spawn ∧
    (enemyLoop g dt i).enemies.length ≤ g.enemies.length ∧
    (enemyLoop g dt i).lives ≤ g.lives := by
  induction g, dt, i using enemyLoop.induct with
  | case1 g dt i hi r hr g1 ih =>
      rw [enemyLoop_step_reached g dt i hi hr]
      obtain ⟨i1, i2, i3, i4, i5, i6, i7, i8, i9, i10, i11⟩ := ih
      refine ⟨i1, i2, i3, i4, i5, i6, i7, i8, i9,
        le_trans i10 ?_, le_trans i11 ?_⟩
      · show (swapRemove
            (g.enemies.set i ((g.enemies.getD i default).update dt g.path).1)
            i).length ≤ g.enemies.length
        rw [length_swapRemove]
        simp
      · show g.lives - 1 ≤ g.lives
        omega
  | case2 g dt i hi r hr ih =>
      rw [enemyLoop_step_moved g dt i hi hr]
      obtain ⟨i1, i2, i3, i4, i5, i6, i7, i8, i9, i10, i11⟩ := ih
      exact ⟨i1, i2, i3, i4, i5, i6, i7, i8, i9, le_trans i10 (by simp), i11⟩
  | case3 g dt i hi =>
      rw [enemyLoop_exit g dt i hi]
      exact ⟨rfl, rfl, rfl, rfl, rfl, rfl, rfl, rfl, rfl, le_rfl, le_rfl⟩

theorem enemyLoop_state (g : GameData) (dt : ℝ) (i : ℕ) :
    (enemyLoop g dt i).state = g.state ∨
    (enemyLoop g dt i).state = GameState.GameOver := by
  induction g, dt, i using enemyLoop.induct with
  | case1 g dt i hi r hr g1 ih =>
      rw [enemyLoop_step_reached g dt i hi hr]
      rcases ih with h | h
      · by_cases hl : g.lives - 1 = 0
        · refine Or.inr (h.trans ?_)
          show (if g.lives - 1 = 0 then GameState.GameOver else g.state) =
            GameState.GameOver
          rw [if_pos hl]
        · refine Or.inl (h.trans ?_)
          show (if g.lives - 1 = 0 then GameState.GameOver else g.state) =
            g.state
          rw [if_neg hl]
      · exact Or.inr h
  | case2 g dt i hi r hr ih =>
      rw [enemyLoop_step_moved g dt i hi hr]
      exact ih
  | case3 g dt i hi =>
      rw [enemyLoop_exit g dt i hi]
      exact Or.inl rfl

theorem projLoop_step_hit (g : GameData) (dt : ℝ) (i : ℕ)
    (hi : i < g.projectiles.length)
    (hr : ((g.projectiles.getD i default).update dt).2 = true) :
    projLoop g dt i =
      projLoop
        { g with
            enemies := (hitScan g.enemies g.money (g.projectiles.getD i default) 0).1,
            money := (hitScan g.enemies g.money (g.projectiles.getD i default) 0).2,
            projectiles := swapRemove g.projectiles i }
        dt i := by
  rw [projLoop, dif_pos hi, if_pos hr]

theorem projLoop_step_moved (g : GameData) (dt : ℝ) (i : ℕ)
    (hi : i < g.projectiles.length)
    (hr : ¬ ((g.projectiles.getD i default).update dt).2 = true) :
    projLoop g dt i =
      projLoop
        { g with
            projectiles :=
              g.projectiles.set i ((g.projectiles.getD i default).update dt).1 }
        dt (i + 1) := by
  rw [projLoop, dif_pos hi, if_neg hr]

theorem projLoop_exit (g : GameData) (dt : ℝ) (i : ℕ)
    (hi : ¬ i < g.projectiles.length) : projLoop g dt i = g := by
  rw [projLoop, dif_neg hi]

theorem projLoop_frame (g : GameData) (dt : ℝ) (i : ℕ) :
    (projLoop g dt i).towers = g.towers ∧
    (projLoop g dt i).path = g.path ∧
    (projLoop g dt i).selected_tower_type = g.selected_tower_type ∧
    (projLoop g dt i).state = g.state ∧
    (projLoop g dt i).lives = g.lives ∧
    (projLoop g dt i).wave = g.wave ∧
    (projLoop g dt i).wave_timer = g.wave_timer ∧
    (projLoop g dt i).spawn_timer = g.spawn_timer ∧
    (projLoop g dt i).enemies_to_spawn = g.enemies_to_spawn ∧
    (projLoop g dt i).enemies.length ≤ g.enemies.length ∧
    (projLoop g dt i).projectiles.length ≤ g.projectiles.length := by
  induction g, dt, i using projLoop.induct with
  | case1 g dt i hi p r hr hs ih =>
      rw [projLoop_step_hit g dt i hi hr]
      obtain ⟨i1, i2, i3, i4, i5, i6, i7, i8, i9, i10, i11⟩ := ih
      exact ⟨i1, i2, i3, i4, i5, i6, i7, i8, i9,
        le_trans i10 (hitScan_len ..),
        le_trans i11 (by rw [length_swapRemove]; omega)⟩
  | case2 g dt i hi p r hr ih =>
      rw [projLoop_step_moved g dt i hi hr]
      obtain ⟨i1, i2, i3, i4, i5, i6, i7, i8, i9, i10, i11⟩ := ih
      exact ⟨i1, i2, i3, i4, i5, i6, i7, i8, i9, i10, le_trans i11 (by simp)⟩
  | case3 g dt i hi =>
      rw [projLoop_exit g dt i hi]
      exact ⟨rfl, rfl, rfl, rfl, rfl, rfl, rfl, rfl, rfl, le_rfl, le_rfl⟩

theorem updateWaveTimer_frame (g : GameData) (dt : ℝ) :
    (updateWaveTimer g dt).towers = g.towers ∧
    (updateWaveTimer g dt).enemies = g.enemies ∧
    (updateWaveTimer g dt).projectiles = g.projectiles ∧
    (updateWaveTimer g dt).state = g.state ∧
    (updateWaveTimer g dt).path = g.path ∧
    (updateWaveTimer g dt).money = g.money ∧
    (updateWaveTimer g dt).lives = g.lives ∧
    (updateWaveTimer g dt).selected_tower_type = g.selected_tower_type := by
  rw [updateWaveTimer]
  split_ifs <;> simp [GameData.startWave]

theorem updateSpawning_frame (g : GameData) (dt : ℝ) :
    (updateSpawning g dt).towers = g.towers ∧
    (updateSpawning g dt).projectiles = g.projectiles ∧
    (updateSpawning g dt).state = g.state ∧
    (updateSpawning g dt).path = g.path ∧
    (updateSpawning g dt).money = g.money ∧
    (updateSpawning g dt).lives = g.lives ∧
    (updateSpawning g dt).selected_tower_type = g.selected_tower_type ∧
    (updateSpawning g dt).wave = g.wave ∧
    (updateSpawning g dt).enemies.length ≤ max g.enemies.length 100 := by
  rw [updateSpawning, GameData.spawnEnemy]
  split_ifs <;> simp_all <;> omega

theorem addTower_inv (g : GameData) (x y : ℝ) (tt : TowerType) :
    (g.addTower x y tt).1.towers.length ≤ max g.towers.length 100 ∧
    (g.addTower x y tt).1.enemies = g.enemies ∧
    (g.addTower x y tt).1.projectiles = g.projectiles := by
  simp only [GameData.addTower]
  split_ifs <;> simp <;> omega

theorem Inv_updateGame (g : GameData) (dt : ℝ) (h : Inv g) :
    Inv (updateGame g dt) := by
  obtain ⟨h1, h2, h3⟩ := h
  rw [updateGame]
  set g1 := updateWaveTimer g dt with hg1
  set g2 := updateSpawning g1 dt with hg2
  set g3 := updateTowers g2 dt with hg3
  set g4 := enemyLoop g3 dt 0 with hg4
  obtain ⟨w1, w2, w3, -, -, -, -, -⟩ := updateWaveTimer_frame g dt
  obtain ⟨s1, s2, -, -, -, -, -, -, s9⟩ := updateSpawning_frame g1 dt
  obtain ⟨t1, t2, -, -, -, -, -, -, -, -, -, t12, -⟩ := updateTowers_spec g2 dt
  obtain ⟨e1, e2, -, -, -, -, -, -, -, e10, -⟩ := enemyLoop_frame g3 dt 0
  obtain ⟨p1, -, -, -, -, -, -, -, -, p10, p11⟩ := projLoop_frame g4 dt 0
  have ht : g4.towers.length ≤ 100 := by
    rw [e1, t1, List.length_map, s1, w1]; exact h1
  have he : g4.enemies.length ≤ 100 := by
    refine le_trans e10 ?_
    rw [t2]
    refine le_trans s9 ?_
    rw [w2]
    omega
  have hp : g4.projectiles.length ≤ 200 := by
    rw [e2]
    refine le_trans t12 ?_
    rw [s2, w3]
    omega
  exact ⟨by rw [p1]; exact ht, le_trans p10 he, le_trans p11 hp⟩

/-- C5: the tower, enemy and projectile collections never exceed their
capacities (100, 100, 200) in any state reachable through the engine's
operations, and an add attempted at capacity is a silent no-op leaving
the state unchanged. -/
theorem capacity_invariants :
    Inv GameData.init ∧ Inv resetGame ∧
    (∀ (g : GameData) (x y : ℝ) (tt : TowerType),
      100 ≤ g.towers.length → g.addTower x y tt = (g, false)) ∧
    (∀ g : GameData, 100 ≤ g.enemies.length → g.spawnEnemy = g) ∧
    (∀ (g : GameData) (x y tx ty dmg : ℝ) (tt : TowerType),
      200 ≤ g.projectiles.length → g.addProjectile x y tx ty dmg tt = g) ∧
    (∀ (g : GameData) (dt : ℝ), Inv g → Inv (update g dt)) ∧
    (∀ (g : GameData) (x y : ℝ), Inv g → Inv (handleClick g x y)) ∧
    (∀ (g : GameData) (n : ℕ), Inv g → Inv (selectTowerType g n)) := by
  have hreset : Inv resetGame := by
    constructor <;> simp [Inv, resetGame, GameData.init]
  refine ⟨⟨by simp [GameData.init], by simp [GameData.init],
      by simp [GameData.init]⟩, hreset, ?_, ?_, ?_, ?_, ?_, ?_⟩
  · intro g x y tt hcap
    rw [GameData.addTower, if_pos hcap]
  · intro g hcap
    rw [GameData.spawnEnemy, if_pos hcap]
  · intro g x y tx ty dmg tt hcap
    rw [GameData.addProjectile, if_pos hcap]
  · intro g dt h
    rw [update]
    split_ifs
    · exact h
    · exact Inv_updateGame g dt h
  · intro g x y h
    rw [handleClick]
    obtain ⟨h1, h2, h3⟩ := h
    split_ifs
    · exact ⟨h1, h2, h3⟩
    · exact ⟨h1, h2, h3⟩
    · exact hreset
    · obtain ⟨a1, a2, a3⟩ := addTower_inv g
        ((⌊x / GRID_SIZE⌋ : ℝ) * GRID_SIZE + GRID_SIZE / 2)
        ((⌊y / GRID_SIZE⌋ : ℝ) * GRID_SIZE + GRID_SIZE / 2)
        g.selected_tower_type
      exact ⟨by refine le_trans a1 ?_; omega, by rw [a2]; exact h2,
        by rw [a3]; exact h3⟩
    · exact ⟨h1, h2, h3⟩
  · intro g n h
    exact h

theorem capacity_invariants_witness :
    100 ≤ ({ GameData.init with
        enemies := List.replicate 100 default } : GameData).enemies.length ∧
    ({ GameData.init with
        enemies := List.replicate 100 default } : GameData).spawnEnemy =
      { GameData.init with enemies := List.replicate 100 default } :=
  ⟨by simp, capacity_invariants.2.2.2.1 _ (by simp)⟩

theorem scanFold_spec (tower : Tower) (es : List Enemy) :
    ∀ (b : Option Enemy) (d : ℝ),
      (es.foldl (scanStep tower) (b, d) = (b, d) ∧
        ∀ e ∈ es, e.active = true → d ≤ dist e.x e.y tower.x tower.y) ∨
      (∃ l e t, es = l ++ e :: t ∧ e.active = true ∧
        dist e.x e.y tower.x tower.y < d ∧
        (∀ e' ∈ l, e'.active = true →
          dist e.x e.y tower.x tower.y < dist e'.x e'.y tower.x tower.y) ∧
        (∀ e' ∈ t, e'.active = true →
          dist e.x e.y tower.x tower.y ≤ dist e'.x e'.y tower.x tower.y) ∧
        es.foldl (scanStep tower) (b, d) =
          (some e, dist e.x e.y tower.x tower.y)) := by
  induction es with
  | nil =>
      intro b d
      left
      exact ⟨rfl, by simp⟩
  | cons a es ih =>
      intro b d
      rw [List.foldl_cons]
      by_cases ha : a.active = false
      · have hstep : scanStep tower (b, d) a = (b, d) := by
          simp [scanStep, ha]
        rw [hstep]
        rcases ih b d with ⟨h1, h2⟩ | ⟨l, e, t, hsplit, he, hlt, hl, ht, hres⟩
        · left
          refine ⟨h1, ?_⟩
          intro e hmem hact
          rcases List.mem_cons.mp hmem with rfl | hmem
          · rw [ha] at hact; cases hact
          · exact h2 e hmem hact
        · right
          refine ⟨a :: l, e, t, by rw [hsplit, List.cons_append], he, hlt,
            ?_, ht, hres⟩
          intro e' hmem hact
          rcases List.mem_cons.mp hmem with rfl | hmem
          · rw [ha] at hact; cases hact
          · exact hl e' hmem hact
      · have ha' : a.active = true := by simpa using ha
        by_cases hda : dist a.x a.y tower.x tower.y < d
        · have hstep : scanStep tower (b, d) a =
              (some a, dist a.x a.y tower.x tower.y) := by
            simp [scanStep, ha, hda]
          rw [hstep]
          rcases ih (some a) (dist a.x a.y tower.x tower.y) with
            ⟨h1, h2⟩ | ⟨l, e, t, hsplit, he, hlt, hl, ht, hres⟩
          · right
            exact ⟨[], a, es, rfl, ha', hda, by simp, h2, h1⟩
          · right
            refine ⟨a :: l, e, t, by rw [hsplit, List.cons_append], he,
              lt_trans hlt hda, ?_, ht, hres⟩
            intro e' hmem hact
            rcases List.mem_cons.mp hmem with rfl | hmem
            · exact hlt
            · exact hl e' hmem hact
        · have hstep : scanStep tower (b, d) a = (b, d) := by
            simp [scanStep, ha, hda]
          rw [hstep]
          rcases ih b d with ⟨h1, h2⟩ | ⟨l, e, t, hsplit, he, hlt, hl, ht, hres⟩
          · left
            refine ⟨h1, ?_⟩
            intro e hmem hact
            rcases List.mem_cons.mp hmem with rfl | hmem
            · exact le_of_not_lt hda
            · exact h2 e hmem hact
          · right
            refine ⟨a :: l, e, t, by rw [hsplit, List.cons_append], he, hlt,
              ?_, ht, hres⟩
            intro e' hmem hact
            rcases List.mem_cons.mp hmem with rfl | hmem
            · exact lt_of_lt_of_le hlt (le_of_not_lt hda)
            · exact hl e' hmem hact

/-- C6 (amended): when a tower is ready during the tower stage, it targets
the nearest active enemy strictly within its range (ties keep the
earlier-found enemy; an enemy at distance exactly the range is not
eligible); if one exists, a projectile toward that enemy's current
position is appended — silently dropped when the projectile collection is
already at its capacity of 200 — and the tower's cooldown is reset to its
maximum in either case. -/
theorem tower_firing (g : GameData) (dt : ℝ) (tower : Tower)
    (hready : Tower.canAttack (Tower.update tower dt)) :
    ((∀ e ∈ g.enemies, e.active = true →
        (Tower.update tower dt).range ≤
          dist e.x e.y (Tower.update tower dt).x (Tower.update tower dt).y) ∧
      towerStep g dt tower = (g, Tower.update tower dt)) ∨
    (∃ l e t, g.enemies = l ++ e :: t ∧ e.active = true ∧
      dist e.x e.y (Tower.update tower dt).x (Tower.update tower dt).y <
        (Tower.update tower dt).range ∧
      (∀ e' ∈ l, e'.active = true →
        dist e.x e.y (Tower.update tower dt).x (Tower.update tower dt).y <
          dist e'.x e'.y (Tower.update tower dt).x (Tower.update tower dt).y) ∧
      (∀ e' ∈ t, e'.active = true →
        dist e.x e.y (Tower.update tower dt).x (Tower.update tower dt).y ≤
          dist e'.x e'.y (Tower.update tower dt).x (Tower.update tower dt).y) ∧
      towerStep g dt tower =
        (g.addProjectile (Tower.update tower dt).x (Tower.update tower dt).y
          e.x e.y (Tower.update tower dt).damage (Tower.update tower dt).type,
         Tower.resetCooldown (Tower.update tower dt)) ∧
      (g.projectiles.length < 200 →
        (towerStep g dt tower).1.projectiles =
          g.projectiles ++
            [Projectile.init (Tower.update tower dt).x
              (Tower.update tower dt).y e.x e.y
              (Tower.update tower dt).damage (Tower.update tower dt).type]) ∧
      (200 ≤ g.projectiles.length →
        (towerStep g dt tower).1.projectiles = g.projectiles)) := by
  rcases scanFold_spec (Tower.update tower dt) g.enemies none
      (Tower.update tower dt).range with
    ⟨h1, h2⟩ | ⟨l, e, t, hsplit, he, hlt, hl, ht, hres⟩
  · left
    refine ⟨h2, ?_⟩
    simp only [towerStep, scanTarget]
    rw [if_pos hready, h1]
  · right
    have hstep : towerStep g dt tower =
        (g.addProjectile (Tower.update tower dt).x (Tower.update tower dt).y
          e.x e.y (Tower.update tower dt).damage (Tower.update tower dt).type,
         Tower.resetCooldown (Tower.update tower dt)) := by
      simp only [towerStep, scanTarget]
      rw [if_pos hready, hres]
    refine ⟨l, e, t, hsplit, he, hlt, hl, ht, hstep, ?_, ?_⟩
    · intro hcap
      rw [hstep]
      simp only [GameData.addProjectile]
      rw [if_neg (by omega)]
    · intro hcap
      rw [hstep]
      simp only [GameData.addProjectile]
      rw [if_pos hcap]

/-- Line tower at (100, 100) used in the C6 scenarios. -/
def towerC6 : Tower := Tower.init 100 100 TowerType.Line

/-- Active enemy at distance 5 from (100, 100) (a 3-4-5 triangle). -/
def enemyC6w : Enemy :=
  { x := 103, y := 104, radius := 15, health := 20, max_health := 20,
    speed := 50, value := 5, active := true, path_index := 0 }

/-- Playing state with a single enemy in range of `towerC6`. -/
def gC6w : GameData :=
  { GameData.init with state := GameState.Playing, enemies := [enemyC6w] }

theorem towerC6_update : Tower.update towerC6 1 = towerC6 := by
  rw [Tower.update, if_neg]
  norm_num [towerC6, Tower.init]

theorem towerC6_ready : Tower.canAttack (Tower.update towerC6 1) := by
  rw [towerC6_update]
  show (0 : ℝ) ≤ 0
  exact le_refl 0

theorem tower_firing_witness :
    Tower.canAttack (Tower.update towerC6 1) ∧
    (towerStep gC6w 1 towerC6).2.cooldown = 0.5 := by
  refine ⟨towerC6_ready, ?_⟩
  have hd : dist enemyC6w.x enemyC6w.y towerC6.x towerC6.y = 5 := by
    refine dist_eval (by norm_num) ?_
    norm_num [enemyC6w, towerC6, Tower.init]
  rcases tower_firing gC6w 1 towerC6 towerC6_ready with
    ⟨h1, -⟩ | ⟨l, e, t, hsplit, he, hlt, hl, ht, hstep, -, -⟩
  · exfalso
    have := h1 enemyC6w (by simp [gC6w]) rfl
    rw [towerC6_update] at this
    rw [hd] at this
    have hr : towerC6.range = 150 := rfl
    rw [hr] at this
    norm_num at this
  · rw [hstep, towerC6_update]
    rfl

/-- Active enemy sitting exactly on `towerC6` (distance 0). -/
def enemyC6 : Enemy :=
  { x := 100, y := 100, radius := 15, health := 20, max_health := 20,
    speed := 50, value := 5, active := true, path_index := 0 }

/-- Playing state with one ready tower, one enemy in range, and the
projectile collection already at its capacity of 200. -/
def gC6 : GameData :=
  { GameData.init with
      state := GameState.Playing,
      towers := [towerC6],
      enemies := [enemyC6],
      projectiles := List.replicate 200 default }

theorem tower_firing_capacity_cex :
    (updateTowers gC6 1).projectiles = gC6.projectiles ∧
    (updateTowers gC6 1).towers = [Tower.resetCooldown towerC6] ∧
    enemyC6 ∈ gC6.enemies ∧ enemyC6.active = true ∧
    dist enemyC6.x enemyC6.y towerC6.x towerC6.y < towerC6.range := by
  have hd : dist enemyC6.x enemyC6.y towerC6.x towerC6.y = 0 := by
    refine dist_eval le_rfl ?_
    norm_num [enemyC6, towerC6, Tower.init]
  have hscan : scanTarget towerC6 gC6.enemies = (some enemyC6, 0) := by
    show List.foldl (scanStep towerC6) (none, towerC6.range) gC6.enemies =
      (some enemyC6, 0)
    have : gC6.enemies = [enemyC6] := rfl
    rw [this, List.foldl_cons, List.foldl_nil, scanStep, if_neg (by simp [enemyC6]),
      if_pos]
    · rw [hd]
    · rw [hd]
      show (0 : ℝ) < towerC6.range
      norm_num [towerC6, Tower.init]
  have hstep : towerStep gC6 1 towerC6 = (gC6, Tower.resetCooldown towerC6) := by
    simp only [towerStep, scanTarget]
    rw [towerC6_update, if_pos (by rw [← towerC6_update]; exact towerC6_ready)]
    show (match (scanTarget towerC6 gC6.enemies).1 with
      | some enemy =>
          (gC6.addProjectile towerC6.x towerC6.y enemy.x enemy.y
            towerC6.damage towerC6.type, Tower.resetCooldown towerC6)
      | none => (gC6, towerC6)) = _
    rw [hscan]
    show (gC6.addProjectile towerC6.x towerC6.y enemyC6.x enemyC6.y
      towerC6.damage towerC6.type, Tower.resetCooldown towerC6) = _
    rw [GameData.addProjectile, if_pos
      (by rw [show gC6.projectiles = List.replicate 200 default from rfl];
          simp)]
  have hfold : updateTowers gC6 1 =
      { gC6 with towers := [Tower.resetCooldown towerC6] } := by
    rw [updateTowers]
    have : gC6.towers = [towerC6] := rfl
    rw [this, List.foldl_cons, List.foldl_nil]
    rw [hstep]
    rfl
  rw [hfold]
  exact ⟨rfl, rfl, by simp [gC6], rfl, by rw [hd]; norm_num [towerC6, Tower.init]⟩

/-- C8 (amended): `canPlaceTower` mutates nothing (it is a read-only
predicate on the state) and, while Playing with a kind selected and the
tower collection below capacity, returns true exactly when placing the
selected kind at the point (x, y) itself would succeed; `handleClick`,
by contrast, validates the grid-snapped cell center, not (x, y). -/
theorem canPlaceTower_iff (g : GameData) (x y : ℝ)
    (hplay : g.state = GameState.Playing)
    (hsel : g.selected_tower_type ≠ TowerType.None)
    (hcap : g.towers.length < 100) :
    (canPlaceTower g x y = true ↔
      (g.addTower x y g.selected_tower_type).2 = true) ∧
    handleClick g x y =
      (g.addTower ((⌊x / GRID_SIZE⌋ : ℝ) * GRID_SIZE + GRID_SIZE / 2)
        ((⌊y / GRID_SIZE⌋ : ℝ) * GRID_SIZE + GRID_SIZE / 2)
        g.selected_tower_type).1 := by
  constructor
  · simp only [canPlaceTower, GameData.addTower]
    rw [if_neg (show ¬ g.state ≠ GameState.Playing by simp [hplay]),
      if_neg hsel, if_neg (show ¬ 100 ≤ g.towers.length by omega)]
    split_ifs <;> simp
  · rw [handleClick, if_neg (by rw [hplay]; simp),
      if_neg (by rw [hplay]; simp), if_neg (by rw [hplay]; simp),
      if_pos hsel]

theorem canPlaceTower_iff_witness :
    resetGame.state = GameState.Playing ∧
    resetGame.selected_tower_type ≠ TowerType.None ∧
    resetGame.towers.length < 100 ∧
    ((canPlaceTower resetGame 100 20 = true ↔
        (resetGame.addTower 100 20 resetGame.selected_tower_type).2 = true) ∧
      handleClick resetGame 100 20 =
        (resetGame.addTower
          ((⌊(100 : ℝ) / GRID_SIZE⌋ : ℝ) * GRID_SIZE + GRID_SIZE / 2)
          ((⌊(20 : ℝ) / GRID_SIZE⌋ : ℝ) * GRID_SIZE + GRID_SIZE / 2)
          resetGame.selected_tower_type).1) :=
  ⟨rfl, by simp [resetGame, GameData.init],
   by simp [resetGame, GameData.init],
   canPlaceTower_iff resetGame 100 20 rfl
     (by simp [resetGame, GameData.init])
     (by simp [resetGame, GameData.init])⟩

theorem canPlaceTower_click_cex :
    canPlaceTower resetGame 39 139 = true ∧
    (handleClick resetGame 39 139).towers = resetGame.towers ∧
    resetGame.towers = [] := by
  have hpath : ¬ ∃ p ∈ resetGame.path, dist p.x p.y 39 139 < GRID_SIZE := by
    rintro ⟨p, hp, hlt⟩
    rw [show resetGame.path =
      [⟨0, 120⟩, ⟨200, 120⟩, ⟨200, 280⟩, ⟨400, 280⟩,
       ⟨400, 120⟩, ⟨600, 120⟩, ⟨600, 400⟩, ⟨800, 400⟩] from rfl] at hp
    rw [GRID_SIZE] at hlt
    simp only [List.mem_cons, List.not_mem_nil, or_false] at hp
    rcases hp with rfl | rfl | rfl | rfl | rfl | rfl | rfl | rfl <;>
      exact absurd hlt (not_lt_of_le (le_dist (by norm_num) (by norm_num)))
  have hcan : canPlaceTower resetGame 39 139 = true := by
    rw [canPlaceTower,
      if_neg (show ¬ resetGame.state ≠ GameState.Playing by simp [resetGame]),
      if_neg (show resetGame.selected_tower_type ≠ TowerType.None by
        simp [resetGame, GameData.init]),
      if_neg (show ¬ resetGame.money <
          (Tower.init 39 139 resetGame.selected_tower_type).cost by
        show ¬ (100 : ℕ) < 50
        norm_num),
      if_neg hpath,
      if_neg (show ¬ ∃ o ∈ resetGame.towers, dist o.x o.y 39 139 < GRID_SIZE by
        rintro ⟨o, ho, -⟩
        simp [resetGame, GameData.init] at ho)]
  have hfl1 : (⌊(39 : ℝ) / GRID_SIZE⌋ : ℤ) = 0 := by
    rw [GRID_SIZE]
    apply Int.floor_eq_iff.mpr
    constructor <;> norm_num
  have hfl2 : (⌊(139 : ℝ) / GRID_SIZE⌋ : ℤ) = 3 := by
    rw [GRID_SIZE]
    apply Int.floor_eq_iff.mpr
    constructor <;> norm_num
  have hclick : (handleClick resetGame 39 139).towers = resetGame.towers := by
    rw [handleClick, if_neg (by simp [resetGame]), if_neg (by simp [resetGame]),
      if_neg (by simp [resetGame]),
      if_pos (show resetGame.selected_tower_type ≠ TowerType.None by
        simp [resetGame, GameData.init])]
    rw [hfl1, hfl2]
    have hsnap : ((0 : ℤ) : ℝ) * GRID_SIZE + GRID_SIZE / 2 = 20 := by
      rw [GRID_SIZE]; norm_num
    have hsnap2 : ((3 : ℤ) : ℝ) * GRID_SIZE + GRID_SIZE / 2 = 140 := by
      rw [GRID_SIZE]; norm_num
    rw [hsnap, hsnap2]
    rw [show resetGame.selected_tower_type = TowerType.Line from rfl]
    simp only [GameData.addTower]
    rw [if_neg (show ¬ 100 ≤ resetGame.towers.length by
        simp [resetGame, GameData.init]),
      if_neg (show ¬ resetGame.money < (Tower.init 20 140 TowerType.Line).cost by
        show ¬ (100 : ℕ) < 50
        norm_num),
      if_pos (show ∃ p ∈ resetGame.path, dist p.x p.y 20 140 < GRID_SIZE from
        ⟨⟨0, 120⟩, by simp [resetGame, GameData.init],
         by rw [GRID_SIZE]; exact dist_lt (by norm_num) (by norm_num)⟩)]
  exact ⟨hcan, hclick, rfl⟩

theorem enemyLoop_gameover (g : GameData) (dt : ℝ) (i : ℕ)
    (h : g.state = GameState.GameOver) :
    (enemyLoop g dt i).state = GameState.GameOver := by
  rcases enemyLoop_state g dt i with h' | h'
  · rw [h', h]
  · exact h'

/-- C1 (amended): when enemy `i` reaches the path end during the enemy
stage while exactly one life remains, `lives` drops by exactly 1 (to 0),
that enemy is swap-removed, and the phase becomes GameOver within that
same step and stays GameOver through the rest of the enemy stage and the
projectile stage; the enemies after index `i` are still processed (and
can still move) within the same step, and only the next step's phase
check stops the simulation. -/
theorem enemy_reaches_end_gameover (g : GameData) (dt : ℝ) (i : ℕ)
    (hi : i < g.enemies.length)
    (hr : ((g.enemies.getD i default).update dt g.path).2 = true)
    (hl : g.lives = 1) :
    enemyLoop g dt i =
      enemyLoop
        { g with
            lives := 0,
            state := GameState.GameOver,
            enemies := swapRemove (g.enemies.set i
              ((g.enemies.getD i default).update dt g.path).1) i } dt i ∧
    (enemyLoop g dt i).lives = 0 ∧
    (enemyLoop g dt i).state = GameState.GameOver ∧
    (projLoop (enemyLoop g dt i) dt 0).state = GameState.GameOver := by
  have hrec :
      ({ g with
          lives := g.lives - 1,
          enemies := swapRemove (g.enemies.set i
            ((g.enemies.getD i default).update dt g.path).1) i,
          state :=
            if g.lives - 1 = 0 then GameState.GameOver else g.state } :
        GameData) =
      { g with
          lives := 0,
          state := GameState.GameOver,
          enemies := swapRemove (g.enemies.set i
            ((g.enemies.getD i default).update dt g.path).1) i } := by
    rw [hl]
    simp
  have heq := (enemyLoop_step_reached g dt i hi hr).trans (by rw [hrec])
  refine ⟨heq, ?_, ?_, ?_⟩
  · rw [heq]
    have h10 := (enemyLoop_frame
      { g with
          lives := 0,
          state := GameState.GameOver,
          enemies := swapRemove (g.enemies.set i
            ((g.enemies.getD i default).update dt g.path).1) i } dt
      i).2.2.2.2.2.2.2.2.2.2
    simpa using h10
  · rw [heq]
    exact enemyLoop_gameover _ dt i rfl
  · rw [heq]
    have hst := (projLoop_frame (enemyLoop
      { g with
          lives := 0,
          state := GameState.GameOver,
          enemies := swapRemove (g.enemies.set i
            ((g.enemies.getD i default).update dt g.path).1) i } dt i) dt 0).2.2.2.1
    rw [hst]
    exact enemyLoop_gameover _ dt i rfl

/-- Enemy standing on the final waypoint (800, 400) of the default path. -/
def enemyA : Enemy :=
  { x := 800, y := 400, radius := 15, health := 20, max_health := 20,
    speed := 50, value := 5, active := true, path_index := 7 }

/-- Enemy at the first waypoint, already heading for waypoint 1. -/
def enemyB : Enemy :=
  { x := 0, y := 120, radius := 15, health := 20, max_health := 20,
    speed := 50, value := 5, active := true, path_index := 1 }

/-- Playing state with one life left: `enemyA` is about to reach the end,
`enemyB` is in mid-path. -/
def cexC1 : GameData :=
  { GameData.init with
      state := GameState.Playing,
      enemies := [enemyA, enemyB],
      lives := 1 }

theorem enemyA_update :
    Enemy.update enemyA 1 GameData.init.path =
      ({ enemyA with path_index := 8 }, true) := by
  rw [Enemy.update]
  rw [if_neg (by simp [enemyA])]
  rw [if_neg (by simp [enemyA, GameData.init])]
  rw [if_pos]
  · rw [if_pos (by simp [enemyA, GameData.init])]
    simp [enemyA]
  · show Real.sqrt _ < 5
    rw [show ((GameData.init.path.getD enemyA.path_index default).x - enemyA.x) *
        ((GameData.init.path.getD enemyA.path_index default).x - enemyA.x) +
        ((GameData.init.path.getD enemyA.path_index default).y - enemyA.y) *
        ((GameData.init.path.getD enemyA.path_index default).y - enemyA.y) =
        0 from by norm_num [GameData.init, enemyA]]
    rw [Real.sqrt_zero]
    norm_num

theorem enemyB_update :
    Enemy.update enemyB 1 GameData.init.path =
      ({ enemyB with x := 50, y := 120 }, false) := by
  have harg : ((GameData.init.path.getD enemyB.path_index default).x - enemyB.x) *
      ((GameData.init.path.getD enemyB.path_index default).x - enemyB.x) +
      ((GameData.init.path.getD enemyB.path_index default).y - enemyB.y) *
      ((GameData.init.path.getD enemyB.path_index default).y - enemyB.y) =
      40000 := by norm_num [GameData.init, enemyB]
  have hsq : Real.sqrt 40000 = 200 := by
    rw [show (40000 : ℝ) = 200 ^ 2 by norm_num]
    exact Real.sqrt_sq (by norm_num)
  rw [Enemy.update]
  rw [if_neg (by simp [enemyB])]
  rw [if_neg (by simp [enemyB, GameData.init])]
  rw [if_neg]
  · rw [harg, hsq]
    refine Prod.ext ?_ rfl
    show ({ enemyB with
      x := enemyB.x + ((GameData.init.path.getD enemyB.path_index default).x
        - enemyB.x) * (enemyB.speed * 1 / 200),
      y := enemyB.y + ((GameData.init.path.getD enemyB.path_index default).y
        - enemyB.y) * (enemyB.speed * 1 / 200) } : Enemy) = _
    norm_num [GameData.init, enemyB]
  · rw [harg, hsq]
    norm_num

/-- Playing state with one life left and a single enemy on the final
waypoint. -/
def gC1w : GameData :=
  { GameData.init with
      state := GameState.Playing,
      enemies := [enemyA],
      lives := 1 }

theorem enemy_reaches_end_gameover_witness :
    0 < gC1w.enemies.length ∧
    ((gC1w.enemies.getD 0 default).update 1 gC1w.path).2 = true ∧
    gC1w.lives = 1 ∧
    (enemyLoop gC1w 1 0).state = GameState.GameOver ∧
    (enemyLoop gC1w 1 0).lives = 0 := by
  have h1 : 0 < gC1w.enemies.length := by simp [gC1w]
  have h2 : ((gC1w.enemies.getD 0 default).update 1 gC1w.path).2 = true := by
    rw [show gC1w.enemies.getD 0 default = enemyA from rfl,
      show gC1w.path = GameData.init.path from rfl, enemyA_update]
  obtain ⟨-, hlives, hstate, -⟩ :=
    enemy_reaches_end_gameover gC1w 1 0 h1 h2 rfl
  exact ⟨h1, h2, rfl, hstate, hlives⟩

/-- State after `enemyA` has been removed: GameOver, zero lives, only
`enemyB` left. -/
def gMidC1 : GameData :=
  { GameData.init with
      state := GameState.GameOver,
      enemies := [enemyB],
      lives := 0 }

/-- Final state of the counterexample step: `enemyB` has moved to x = 50
after the GameOver transition. -/
def gFinC1 : GameData :=
  { GameData.init with
      state := GameState.GameOver,
      enemies := [{ enemyB with x := 50, y := 120 }],
      lives := 0 }

theorem lives_gameover_movement_cex :
    (updateGame cexC1 1).state = GameState.GameOver ∧
    (updateGame cexC1 1).lives = 0 ∧
    (updateGame cexC1 1).enemies = [{ enemyB with x := 50, y := 120 }] ∧
    enemyB.x = 0 := by
  have hst1 : updateWaveTimer cexC1 1 = cexC1 := by
    rw [updateWaveTimer, if_neg]
    simp [cexC1]
  have hst2 : updateSpawning cexC1 1 = cexC1 := by
    rw [updateSpawning, if_neg]
    simp [cexC1, GameData.init]
  have hst3 : updateTowers cexC1 1 = cexC1 := by
    rw [updateTowers, show cexC1.towers = [] from rfl, List.foldl_nil]
    rfl
  have hiA : 0 < cexC1.enemies.length := by simp [cexC1]
  have hrA : ((cexC1.enemies.getD 0 default).update 1 cexC1.path).2 = true := by
    rw [show cexC1.enemies.getD 0 default = enemyA from rfl,
      show cexC1.path = GameData.init.path from rfl, enemyA_update]
  have heq1 := enemyLoop_step_reached cexC1 1 0 hiA hrA
  have hrec1 :
      ({ cexC1 with
          lives := cexC1.lives - 1,
          enemies := swapRemove (cexC1.enemies.set 0
            ((cexC1.enemies.getD 0 default).update 1 cexC1.path).1) 0,
          state :=
            if cexC1.lives - 1 = 0 then GameState.GameOver
            else cexC1.state } : GameData) = gMidC1 := by
    rw [show ((cexC1.enemies.getD 0 default).update 1 cexC1.path).1 =
      { enemyA with path_index := 8 } from by
        rw [show cexC1.enemies.getD 0 default = enemyA from rfl,
          show cexC1.path = GameData.init.path from rfl, enemyA_update]]
    rw [show cexC1.enemies = [enemyA, enemyB] from rfl]
    simp [swapRemove, cexC1, gMidC1, GameData.init]
  have hiB : 0 < gMidC1.enemies.length := by simp [gMidC1]
  have hrB : ¬ ((gMidC1.enemies.getD 0 default).update 1 gMidC1.path).2 =
      true := by
    rw [show gMidC1.enemies.getD 0 default = enemyB from rfl,
      show gMidC1.path = GameData.init.path from rfl, enemyB_update]
    simp
  have heq2 := enemyLoop_step_moved gMidC1 1 0 hiB hrB
  have hrec2 :
      ({ gMidC1 with
          enemies := gMidC1.enemies.set 0
            ((gMidC1.enemies.getD 0 default).update 1 gMidC1.path).1 } :
        GameData) = gFinC1 := by
    rw [show ((gMidC1.enemies.getD 0 default).update 1 gMidC1.path).1 =
      { enemyB with x := 50, y := 120 } from by
        rw [show gMidC1.enemies.getD 0 default = enemyB from rfl,
          show gMidC1.path = GameData.init.path from rfl, enemyB_update]]
    rw [show gMidC1.enemies = [enemyB] from rfl]
    simp [gMidC1, gFinC1]
  have heq3 := enemyLoop_exit gFinC1 1 1 (by simp [gFinC1])
  have hproj := projLoop_exit gFinC1 1 0 (by simp [gFinC1, GameData.init])
  have hfinal : updateGame cexC1 1 = gFinC1 := by
    rw [updateGame, hst1, hst2, hst3, heq1, hrec1, heq2, hrec2, heq3, hproj]
  rw [hfinal]
  exact ⟨rfl, rfl, rfl, rfl⟩

theorem mem_swapRemove [Inhabited α] {a : α} (xs : List α) (i : ℕ)
    (h : a ∈ swapRemove xs i) : a ∈ xs := by
  rw [swapRemove] at h
  have h1 := (List.dropLast_sublist
    (xs.set i (xs.getD (xs.length - 1) default))).subset h
  rcases List.mem_or_eq_of_mem_set h1 with h2 | h2
  · exact h2
  · subst h2
    cases xs with
    | nil => simp [List.set] at h
    | cons b l =>
        rw [List.getD_eq_getElem _ _ (by simp)]
        exact List.getElem_mem _

theorem enemyUpdate_zero_pos (e : Enemy) (path : List PathPoint) :
    ((Enemy.update e 0 path).1.x = e.x ∧ (Enemy.update e 0 path).1.y = e.y) := by
  rw [Enemy.update]
  split_ifs <;> simp [apply_ite]

theorem projUpdate_zero_pos (p : Projectile) :
    ((Projectile.update p 0).1.x = p.x ∧ (Projectile.update p 0).1.y = p.y) := by
  rw [Projectile.update]
  split_ifs <;> simp [apply_ite]

theorem Tower.update_zero (t : Tower) : Tower.update t 0 = t := by
  rw [Tower.update]
  split_ifs with h1 h2
  · linarith
  · simp
  · rfl

theorem updateWaveTimer_zero (g : GameData) (hwt : g.wave_timer < 5) :
    updateWaveTimer g 0 = g := by
  rw [updateWaveTimer]
  split_ifs with h1 h2
  · linarith
  · simp
  · rfl

theorem updateSpawning_zero (g : GameData) (hst : g.spawn_timer ≤ 1) :
    updateSpawning g 0 = g := by
  rw [updateSpawning]
  split_ifs with h1 h2
  · linarith
  · simp
  · rfl

/-- Every enemy of the first list sits at the position of some enemy of
the second list. -/
def posSub (es' es : List Enemy) : Prop :=
  ∀ e' ∈ es', ∃ e ∈ es, e'.x = e.x ∧ e'.y = e.y

theorem posSub_refl (es : List Enemy) : posSub es es :=
  fun e' h => ⟨e', h, rfl, rfl⟩

theorem posSub_trans {a b c : List Enemy} (h1 : posSub a b)
    (h2 : posSub b c) : posSub a c := by
  intro e' he
  obtain ⟨e, hm, hx, hy⟩ := h1 e' he
  obtain ⟨f, hf, hx', hy'⟩ := h2 e hm
  exact ⟨f, hf, hx.trans hx', hy.trans hy'⟩

theorem posSub_set (es : List Enemy) (k : ℕ) (v : Enemy)
    (hk : k < es.length)
    (hv : v.x = (es.getD k default).x ∧ v.y = (es.getD k default).y) :
    posSub (es.set k v) es := by
  intro e' he
  rcases List.mem_or_eq_of_mem_set he with h | h
  · exact ⟨e', h, rfl, rfl⟩
  · subst h
    refine ⟨es.getD k default, ?_, hv.1, hv.2⟩
    rw [List.getD_eq_getElem _ _ hk]
    exact List.getElem_mem _

theorem posSub_swapRemove_set (es : List Enemy) (k : ℕ) (v : Enemy)
    (hk : k < es.length)
    (hv : v.x = (es.getD k default).x ∧ v.y = (es.getD k default).y) :
    posSub (swapRemove (es.set k v) k) es := by
  intro e' he
  exact posSub_set es k v hk hv e' (mem_swapRemove _ _ he)

theorem takeDamage_pos (e : Enemy) (a : ℝ) :
    (Enemy.takeDamage e a).1.x = e.x ∧ (Enemy.takeDamage e a).1.y = e.y :=
  ⟨rfl, rfl⟩

theorem splashLoop_pos (es : List Enemy) (m : ℕ) (tx ty dmg : ℝ) (k : ℕ) :
    posSub (splashLoop es m tx ty dmg k).1 es := by
  induction es, m, tx, ty, dmg, k using splashLoop.induct with
  | case1 es m tx ty dmg k hk se hact ih =>
      have heq : splashLoop es m tx ty dmg k =
          splashLoop es m tx ty dmg (k + 1) := by
        rw [splashLoop, dif_pos hk, if_pos hact]
      rw [heq]; exact ih
  | case2 es m tx ty dmg k hk se hact hd r hkill ih =>
      have heq : splashLoop es m tx ty dmg k =
          splashLoop (swapRemove (es.set k r.1) k) (m + se.value)
            tx ty dmg k := by
        rw [splashLoop, dif_pos hk, if_neg hact, if_pos hd, if_pos hkill]
      rw [heq]
      exact posSub_trans ih (posSub_swapRemove_set es k r.1 hk ⟨rfl, rfl⟩)
  | case3 es m tx ty dmg k hk se hact hd r hkill ih =>
      have heq : splashLoop es m tx ty dmg k =
          splashLoop (es.set k r.1) m tx ty dmg (k + 1) := by
        rw [splashLoop, dif_pos hk, if_neg hact, if_pos hd, if_neg hkill]
      rw [heq]
      exact posSub_trans ih (posSub_set es k r.1 hk ⟨rfl, rfl⟩)
  | case4 es m tx ty dmg k hk se hact hd ih =>
      have heq : splashLoop es m tx ty dmg k =
          splashLoop es m tx ty dmg (k + 1) := by
        rw [splashLoop, dif_pos hk, if_neg hact, if_neg hd]
      rw [heq]; exact ih
  | case5 es m tx ty dmg k hk =>
      rw [splashLoop, dif_neg hk]
      exact posSub_refl es

theorem hitScan_pos (es : List Enemy) (m : ℕ) (p : Projectile) (j : ℕ) :
    posSub (hitScan es m p j).1 es := by
  induction es, m, p, j using hitScan.induct with
  | case1 es m p j hj enemy hact ih =>
      have heq : hitScan es m p j = hitScan es m p (j + 1) := by
        rw [hitScan, dif_pos hj, if_pos hact]
      rw [heq]; exact ih
  | case2 es m p j hj enemy hact hd htri =>
      have heq : hitScan es m p j =
          splashLoop es m p.target_x p.target_y p.damage 0 := by
        rw [hitScan, dif_pos hj, if_neg hact, if_pos hd, if_pos htri]
      rw [heq]
      exact splashLoop_pos es m p.target_x p.target_y p.damage 0
  | case3 es m p j hj enemy hact hd htri hsq r hkill ih =>
      have heq : hitScan es m p j =
          hitScan (swapRemove (es.set j r.1) j) (m + enemy.value) p j := by
        rw [hitScan, dif_pos hj, if_neg hact, if_pos hd, if_neg htri,
          if_pos hsq, if_pos hkill]
      rw [heq]
      exact posSub_trans ih (posSub_swapRemove_set es j r.1 hj ⟨rfl, rfl⟩)
  | case4 es m p j hj enemy hact hd htri hsq r hkill =>
      have heq : hitScan es m p j = (es.set j r.1, m) := by
        rw [hitScan, dif_pos hj, if_neg hact, if_pos hd, if_neg htri,
          if_pos hsq, if_neg hkill]
      rw [heq]
      exact posSub_set es j r.1 hj ⟨rfl, rfl⟩
  | case5 es m p j hj enemy hact hd htri hsq r hkill ih =>
      have heq : hitScan es m p j =
          hitScan (swapRemove (es.set j r.1) j) (m + enemy.value) p j := by
        rw [hitScan, dif_pos hj, if_neg hact, if_pos hd, if_neg htri,
          if_neg hsq, if_pos hkill]
      rw [heq]
      exact posSub_trans ih (posSub_swapRemove_set es j r.1 hj ⟨rfl, rfl⟩)
  | case6 es m p j hj enemy hact hd htri hsq r hkill =>
      have heq : hitScan es m p j = (es.set j r.1, m) := by
        rw [hitScan, dif_pos hj, if_neg hact, if_pos hd, if_neg htri,
          if_neg hsq, if_neg hkill]
      rw [heq]
      exact posSub_set es j r.1 hj ⟨rfl, rfl⟩
  | case7 es m p j hj enemy hact hd ih =>
      have heq : hitScan es m p j = hitScan es m p (j + 1) := by
        rw [hitScan, dif_pos hj, if_neg hact, if_neg hd]
      rw [heq]; exact ih
  | case8 es m p j hj =>
      rw [hitScan, dif_neg hj]
      exact posSub_refl es

theorem enemyLoop_pos (g : GameData) (dt : ℝ) (i : ℕ) :
    dt = 0 → posSub (enemyLoop g dt i).enemies g.enemies := by
  induction g, dt, i using enemyLoop.induct with
  | case1 g dt i hi r hr g1 ih =>
      intro hdt
      rw [enemyLoop_step_reached g dt i hi hr]
      refine posSub_trans (ih hdt) ?_
      refine posSub_swapRemove_set g.enemies i
        ((g.enemies.getD i default).update dt g.path).1 hi ?_
      rw [hdt]
      exact enemyUpdate_zero_pos ..
  | case2 g dt i hi r hr ih =>
      intro hdt
      rw [enemyLoop_step_moved g dt i hi hr]
      refine posSub_trans (ih hdt) ?_
      refine posSub_set g.enemies i
        ((g.enemies.getD i default).update dt g.path).1 hi ?_
      rw [hdt]
      exact enemyUpdate_zero_pos ..
  | case3 g dt i hi =>
      intro hdt
      rw [enemyLoop_exit g dt i hi]
      exact posSub_refl g.enemies

theorem projLoop_enemies_pos (g : GameData) (dt : ℝ) (i : ℕ) :
    posSub (projLoop g dt i).enemies g.enemies := by
  induction g, dt, i using projLoop.induct with
  | case1 g dt i hi p r hr hs ih =>
      rw [projLoop_step_hit g dt i hi hr]
      exact posSub_trans ih (hitScan_pos g.enemies g.money p 0)
  | case2 g dt i hi p r hr ih =>
      rw [projLoop_step_moved g dt i hi hr]
      exact ih
  | case3 g dt i hi =>
      rw [projLoop_exit g dt i hi]
      exact posSub_refl g.enemies

/-- Every projectile of the first list sits at the position of some
projectile of the second list. -/
def pposSub (ps' ps : List Projectile) : Prop :=
  ∀ p' ∈ ps', ∃ p ∈ ps, p'.x = p.x ∧ p'.y = p.y

theorem pposSub_refl (ps : List Projectile) : pposSub ps ps :=
  fun p' h => ⟨p', h, rfl, rfl⟩

theorem pposSub_trans {a b c : List Projectile} (h1 : pposSub a b)
    (h2 : pposSub b c) : pposSub a c := by
  intro p' hp
  obtain ⟨p, hm, hx, hy⟩ := h1 p' hp
  obtain ⟨q, hq, hx', hy'⟩ := h2 p hm
  exact ⟨q, hq, hx.trans hx', hy.trans hy'⟩

theorem pposSub_set (ps : List Projectile) (k : ℕ) (v : Projectile)
    (hk : k < ps.length)
    (hv : v.x = (ps.getD k default).x ∧ v.y = (ps.getD k default).y) :
    pposSub (ps.set k v) ps := by
  intro p' hp
  rcases List.mem_or_eq_of_mem_set hp with h | h
  · exact ⟨p', h, rfl, rfl⟩
  · subst h
    refine ⟨ps.getD k default, ?_, hv.1, hv.2⟩
    rw [List.getD_eq_getElem _ _ hk]
    exact List.getElem_mem _

theorem pposSub_swapRemove (ps : List Projectile) (k : ℕ) :
    pposSub (swapRemove ps k) ps :=
  fun p' hp => ⟨p', mem_swapRemove _ _ hp, rfl, rfl⟩

theorem projLoop_proj_pos (g : GameData) (dt : ℝ) (i : ℕ) :
    dt = 0 → pposSub (projLoop g dt i).projectiles g.projectiles := by
  induction g, dt, i using projLoop.induct with
  | case1 g dt i hi p r hr hs ih =>
      intro hdt
      rw [projLoop_step_hit g dt i hi hr]
      exact pposSub_trans (ih hdt) (pposSub_swapRemove g.projectiles i)
  | case2 g dt i hi p r hr ih =>
      intro hdt
      rw [projLoop_step_moved g dt i hi hr]
      refine pposSub_trans (ih hdt) ?_
      refine pposSub_set g.projectiles i
        ((g.projectiles.getD i default).update dt).1 hi ?_
      rw [hdt]
      exact projUpdate_zero_pos ..
  | case3 g dt i hi =>
      intro hdt
      rw [projLoop_exit g dt i hi]
      exact pposSub_refl g.projectiles

theorem towerFire_zero_cooldown (enemies : List Enemy) (tw : Tower) :
    (towerFire enemies 0 tw).cooldown = tw.cooldown ∨
    (towerFire enemies 0 tw).cooldown = tw.cooldown_max := by
  simp only [towerFire, Tower.update_zero]
  split_ifs
  · cases (scanTarget tw enemies).1
    · exact Or.inl rfl
    · exact Or.inr rfl
  · exact Or.inl rfl

/-- C3 (amended): a `step(0)` call while Playing (with the timers inside
their reachable bounds: waveTimer < 5, spawnTimer ≤ 1) behaves as if no
time elapsed: the wave and spawn timers are unchanged, every tower's
cooldown is unchanged or reset to its cooldownMax (never pushed below),
every surviving enemy sits at the position of an input enemy, and every
surviving projectile sits at the position of an input projectile or at
the tower that just fired it; the embedding is total, so no call panics.
For negative delta the original claim fails: timers move backward (see
the counterexample). -/
theorem step_zero_delta (g : GameData)
    (hwt : g.wave_timer < 5) (hst : g.spawn_timer ≤ 1) :
    (updateGame g 0).wave_timer = g.wave_timer ∧
    (updateGame g 0).spawn_timer = g.spawn_timer ∧
    (∀ tw' ∈ (updateGame g 0).towers, ∃ tw ∈ g.towers,
      tw'.cooldown = tw.cooldown ∨ tw'.cooldown = tw.cooldown_max) ∧
    posSub (updateGame g 0).enemies g.enemies ∧
    (∀ p' ∈ (updateGame g 0).projectiles,
      (∃ p ∈ g.projectiles, p'.x = p.x ∧ p'.y = p.y) ∨
      (∃ tw ∈ g.towers, p'.x = tw.x ∧ p'.y = tw.y)) := by
  have h1 : updateWaveTimer g 0 = g := updateWaveTimer_zero g hwt
  have h2 : updateSpawning g 0 = g := updateSpawning_zero g hst
  rw [updateGame, h1, h2]
  obtain ⟨t1, t2, -, -, -, -, -, -, t9, t10, -, -, t13⟩ := updateTowers_spec g 0
  obtain ⟨e1, e2, -, -, -, -, e7, e8, -, -, -⟩ :=
    enemyLoop_frame (updateTowers g 0) 0 0
  obtain ⟨p1, -, -, -, -, -, p7, p8, -, -, -⟩ :=
    projLoop_frame (enemyLoop (updateTowers g 0) 0 0) 0 0
  refine ⟨by rw [p7, e7, t9], by rw [p8, e8, t10], ?_, ?_, ?_⟩
  · intro tw' hmem
    rw [p1, e1, t1] at hmem
    rw [List.mem_map] at hmem
    obtain ⟨tw, htw, rfl⟩ := hmem
    exact ⟨tw, htw, towerFire_zero_cooldown g.enemies tw⟩
  · refine posSub_trans
      (projLoop_enemies_pos (enemyLoop (updateTowers g 0) 0 0) 0 0) ?_
    refine posSub_trans (enemyLoop_pos _ 0 0 rfl) ?_
    rw [t2]
    exact posSub_refl g.enemies
  · intro p' hmem
    obtain ⟨q, hq, hx, hy⟩ :=
      projLoop_proj_pos (enemyLoop (updateTowers g 0) 0 0) 0 0 rfl p' hmem
    rw [e2] at hq
    rcases t13 q hq with h | ⟨tw, htw, hx', hy'⟩
    · exact Or.inl ⟨q, h, hx, hy⟩
    · exact Or.inr ⟨tw, htw, hx.trans hx', hy.trans hy'⟩

theorem step_zero_delta_witness :
    resetGame.wave_timer < 5 ∧ resetGame.spawn_timer ≤ 1 ∧
    (updateGame resetGame 0).wave_timer = resetGame.wave_timer ∧
    (updateGame resetGame 0).spawn_timer = resetGame.spawn_timer := by
  have h := step_zero_delta resetGame
    (by norm_num [resetGame, GameData.init])
    (by norm_num [resetGame, GameData.init])
  exact ⟨by norm_num [resetGame, GameData.init],
    by norm_num [resetGame, GameData.init], h.1, h.2.1⟩

/-- Playing state whose wave timer stands at 1 second. -/
def cexC3 : GameData :=
  { GameData.init with
      state := GameState.Playing,
      wave_timer := 1 }

theorem negative_delta_cex :
    ((-1 : ℝ) ≤ 0) ∧ cexC3.wave_timer = 1 ∧
    (updateGame cexC3 (-1)).wave_timer = 0 := by
  have h1 : updateWaveTimer cexC3 (-1) = resetGame := by
    rw [updateWaveTimer, if_pos (by simp [cexC3, GameData.init]),
      if_neg (show ¬ (5 : ℝ) ≤ cexC3.wave_timer + (-1) by
        norm_num [cexC3, GameData.init])]
    norm_num [cexC3, resetGame, GameData.init]
  have h2 : updateSpawning resetGame (-1) = resetGame := by
    rw [updateSpawning, if_neg]
    simp [resetGame, GameData.init]
  have h3 : updateTowers resetGame (-1) = resetGame := by
    rw [updateTowers, show resetGame.towers = [] from rfl, List.foldl_nil]
    rfl
  have h4 := enemyLoop_exit resetGame (-1) 0
    (by simp [resetGame, GameData.init])
  have h5 := projLoop_exit resetGame (-1) 0
    (by simp [resetGame, GameData.init])
  refine ⟨by norm_num, rfl, ?_⟩
  rw [updateGame, h1, h2, h3, h4, h5]
  rfl

/-- Enemy of health 5 standing at (100, 100), away from every waypoint. -/
def enemyE1 : Enemy :=
  { x := 100, y := 100, radius := 15, health := 5, max_health := 5,
    speed := 0, value := 7, active := true, path_index := 0 }

/-- Enemy of health 100 also standing at (100, 100). -/
def enemyE2 : Enemy :=
  { x := 100, y := 100, radius := 15, health := 100, max_health := 100,
    speed := 0, value := 9, active := true, path_index := 0 }

/-- Line-tower projectile of damage 10 arrived at its target (100, 100). -/
def projC2 : Projectile :=
  { x := 100, y := 100, target_x := 100, target_y := 100, speed := 300,
    damage := 10, active := true, tower_type := TowerType.Line }

theorem sqrt10400_ge : ¬ Real.sqrt (10400 : ℝ) < 5 := by
  have h5 : (5 : ℝ) ≤ Real.sqrt 10400 := by
    rw [show (5 : ℝ) = Real.sqrt 25 from by
      rw [show (25 : ℝ) = 5 ^ 2 by norm_num,
        Real.sqrt_sq (by norm_num : (0 : ℝ) ≤ 5)]]
    exact Real.sqrt_le_sqrt (by norm_num)
  linarith

theorem enemyE1_update :
    Enemy.update enemyE1 1 GameData.init.path = (enemyE1, false) := by
  have harg : ((GameData.init.path.getD enemyE1.path_index default).x - enemyE1.x) *
      ((GameData.init.path.getD enemyE1.path_index default).x - enemyE1.x) +
      ((GameData.init.path.getD enemyE1.path_index default).y - enemyE1.y) *
      ((GameData.init.path.getD enemyE1.path_index default).y - enemyE1.y) =
      10400 := by norm_num [GameData.init, enemyE1]
  rw [Enemy.update]
  rw [if_neg (by simp [enemyE1])]
  rw [if_neg (by simp [enemyE1, GameData.init])]
  rw [if_neg]
  · refine Prod.ext ?_ rfl
    show ({ enemyE1 with
      x := enemyE1.x + ((GameData.init.path.getD enemyE1.path_index default).x
        - enemyE1.x) * (enemyE1.speed * 1 /
          Real.sqrt (((GameData.init.path.getD enemyE1.path_index default).x - enemyE1.x) *
            ((GameData.init.path.getD enemyE1.path_index default).x - enemyE1.x) +
            ((GameData.init.path.getD enemyE1.path_index default).y - enemyE1.y) *
            ((GameData.init.path.getD enemyE1.path_index default).y - enemyE1.y))),
      y := enemyE1.y + ((GameData.init.path.getD enemyE1.path_index default).y
        - enemyE1.y) * (enemyE1.speed * 1 /
          Real.sqrt (((GameData.init.path.getD enemyE1.path_index default).x - enemyE1.x) *
            ((GameData.init.path.getD enemyE1.path_index default).x - enemyE1.x) +
            ((GameData.init.path.getD enemyE1.path_index default).y - enemyE1.y) *
            ((GameData.init.path.getD enemyE1.path_index default).y - enemyE1.y))) } :
      Enemy) = enemyE1
    rw [show enemyE1.speed = 0 from rfl]
    norm_num
  · rw [harg]
    exact sqrt10400_ge

theorem enemyE2_update :
    Enemy.update enemyE2 1 GameData.init.path = (enemyE2, false) := by
  have harg : ((GameData.init.path.getD enemyE2.path_index default).x - enemyE2.x) *
      ((GameData.init.path.getD enemyE2.path_index default).x - enemyE2.x) +
      ((GameData.init.path.getD enemyE2.path_index default).y - enemyE2.y) *
      ((GameData.init.path.getD enemyE2.path_index default).y - enemyE2.y) =
      10400 := by norm_num [GameData.init, enemyE2]
  rw [Enemy.update]
  rw [if_neg (by simp [enemyE2])]
  rw [if_neg (by simp [enemyE2, GameData.init])]
  rw [if_neg]
  · refine Prod.ext ?_ rfl
    show ({ enemyE2 with
      x := enemyE2.x + ((GameData.init.path.getD enemyE2.path_index default).x
        - enemyE2.x) * (enemyE2.speed * 1 /
          Real.sqrt (((GameData.init.path.getD enemyE2.path_index default).x - enemyE2.x) *
            ((GameData.init.path.getD enemyE2.path_index default).x - enemyE2.x) +
            ((GameData.init.path.getD enemyE2.path_index default).y - enemyE2.y) *
            ((GameData.init.path.getD enemyE2.path_index default).y - enemyE2.y))),
      y := enemyE2.y + ((GameData.init.path.getD enemyE2.path_index default).y
        - enemyE2.y) * (enemyE2.speed * 1 /
          Real.sqrt (((GameData.init.path.getD enemyE2.path_index default).x - enemyE2.x) *
            ((GameData.init.path.getD enemyE2.path_index default).x - enemyE2.x) +
            ((GameData.init.path.getD enemyE2.path_index default).y - enemyE2.y) *
            ((GameData.init.path.getD enemyE2.path_index default).y - enemyE2.y))) } :
      Enemy) = enemyE2
    rw [show enemyE2.speed = 0 from rfl]
    norm_num
  · rw [harg]
    exact sqrt10400_ge

/-- Playing state: the low-health enemy in front of the high-health one,
both on the projectile's target point. -/
def cexC2 : GameData :=
  { GameData.init with
      state := GameState.Playing,
      enemies := [enemyE1, enemyE2],
      projectiles := [projC2] }

theorem projC2_update : Projectile.update projC2 1 = (projC2, true) := by
  rw [Projectile.update]
  rw [if_neg (by simp [projC2])]
  rw [if_pos]
  rw [show (projC2.target_x - projC2.x) * (projC2.target_x - projC2.x) +
    (projC2.target_y - projC2.y) * (projC2.target_y - projC2.y) = 0 from by
      norm_num [projC2]]
  rw [Real.sqrt_zero]
  norm_num

theorem hitScan_E2 :
    hitScan [enemyE2] 107 projC2 0 =
      ([{ enemyE2 with health := 90 }], 107) := by
  have hd : dist ([enemyE2].getD 0 default).x ([enemyE2].getD 0 default).y
      projC2.target_x projC2.target_y < ([enemyE2].getD 0 default).radius := by
    rw [show ([enemyE2].getD 0 default) = enemyE2 from rfl]
    rw [show dist enemyE2.x enemyE2.y projC2.target_x projC2.target_y = 0 from
      dist_eval le_rfl (by norm_num [enemyE2, projC2])]
    norm_num [enemyE2]
  rw [hitScan, dif_pos (by norm_num), if_neg (by simp [enemyE2]), if_pos hd,
    if_neg (by simp [projC2]), if_neg (by simp [projC2]),
    if_neg (show ¬ (([enemyE2].getD 0 default).takeDamage projC2.damage).2 =
        true by
      simp [Enemy.takeDamage, enemyE2, projC2]
      norm_num)]
  rw [show ([enemyE2].getD 0 default) = enemyE2 from rfl]
  rw [show (enemyE2.takeDamage projC2.damage).1 =
    { enemyE2 with health := 90 } from by
      rw [Enemy.takeDamage]
      show ({ enemyE2 with health := enemyE2.health - projC2.damage } :
        Enemy) = _
      norm_num [enemyE2, projC2]]
  rfl

theorem hitScan_E1E2 :
    hitScan [enemyE1, enemyE2] 100 projC2 0 =
      ([{ enemyE2 with health := 90 }], 107) := by
  have hd : dist ([enemyE1, enemyE2].getD 0 default).x
      ([enemyE1, enemyE2].getD 0 default).y
      projC2.target_x projC2.target_y <
      ([enemyE1, enemyE2].getD 0 default).radius := by
    rw [show ([enemyE1, enemyE2].getD 0 default) = enemyE1 from rfl]
    rw [show dist enemyE1.x enemyE1.y projC2.target_x projC2.target_y = 0 from
      dist_eval le_rfl (by norm_num [enemyE1, projC2])]
    norm_num [enemyE1]
  rw [hitScan, dif_pos (by norm_num), if_neg (by simp [enemyE1]), if_pos hd,
    if_neg (by simp [projC2]), if_neg (by simp [projC2]),
    if_pos (show (([enemyE1, enemyE2].getD 0 default).takeDamage
        projC2.damage).2 = true by
      simp [Enemy.takeDamage, enemyE1, projC2]
      norm_num)]
  rw [show swapRemove ([enemyE1, enemyE2].set 0
      (([enemyE1, enemyE2].getD 0 default).takeDamage projC2.damage).1) 0 =
    [enemyE2] from by simp [swapRemove]]
  rw [show (100 + ([enemyE1, enemyE2].getD 0 default).value) = 107 from rfl]
  exact hitScan_E2

/-- C2 is a code bug: in the plain-damage branch the `continue` after a
kill skips the `break`, so one Line projectile damages a second enemy
after killing the first.  This theorem evaluates the step on the failing
input: the projectile kills `enemyE1` (health 5, value 7 awarded to
money) and then also damages `enemyE2` from 100 down to 90. -/
theorem plain_projectile_multihit_cex :
    (updateGame cexC2 1).money = 107 ∧
    (updateGame cexC2 1).enemies = [{ enemyE2 with health := 90 }] ∧
    (updateGame cexC2 1).projectiles = [] ∧ enemyE2.health = 100 := by
  have hst1 : updateWaveTimer cexC2 1 = cexC2 := by
    rw [updateWaveTimer, if_neg]
    simp [cexC2]
  have hst2 : updateSpawning cexC2 1 = cexC2 := by
    rw [updateSpawning, if_neg]
    simp [cexC2, GameData.init]
  have hst3 : updateTowers cexC2 1 = cexC2 := by
    rw [updateTowers, show cexC2.towers = [] from rfl, List.foldl_nil]
    rfl
  have hA : enemyLoop cexC2 1 0 =
      enemyLoop cexC2 1 1 := by
    have h := enemyLoop_step_moved cexC2 1 0 (by norm_num [cexC2])
      (by rw [show cexC2.enemies.getD 0 default = enemyE1 from rfl,
        show cexC2.path = GameData.init.path from rfl, enemyE1_update]
          simp)
    rw [h]
    rw [show cexC2.enemies.set 0
      ((cexC2.enemies.getD 0 default).update 1 cexC2.path).1 =
        cexC2.enemies from by
      rw [show cexC2.enemies.getD 0 default = enemyE1 from rfl,
        show cexC2.path = GameData.init.path from rfl, enemyE1_update]
      rfl]
  have hB : enemyLoop cexC2 1 1 = enemyLoop cexC2 1 2 := by
    have h := enemyLoop_step_moved cexC2 1 1 (by norm_num [cexC2])
      (by rw [show cexC2.enemies.getD 1 default = enemyE2 from rfl,
        show cexC2.path = GameData.init.path from rfl, enemyE2_update]
          simp)
    rw [h]
    rw [show cexC2.enemies.set 1
      ((cexC2.enemies.getD 1 default).update 1 cexC2.path).1 =
        cexC2.enemies from by
      rw [show cexC2.enemies.getD 1 default = enemyE2 from rfl,
        show cexC2.path = GameData.init.path from rfl, enemyE2_update]
      rfl]
  have hC : enemyLoop cexC2 1 2 = cexC2 :=
    enemyLoop_exit cexC2 1 2 (by norm_num [cexC2])
  have hP : projLoop cexC2 1 0 =
      projLoop
        { cexC2 with
            enemies := [{ enemyE2 with health := 90 }],
            money := 107,
            projectiles := [] } 1 0 := by
    have h := projLoop_step_hit cexC2 1 0 (by norm_num [cexC2])
      (by rw [show cexC2.projectiles.getD 0 default = projC2 from rfl,
        projC2_update])
    rw [h]
    rw [show cexC2.projectiles.getD 0 default = projC2 from rfl]
    rw [show cexC2.enemies = [enemyE1, enemyE2] from rfl,
      show cexC2.money = 100 from rfl, hitScan_E1E2]
    rw [show swapRemove cexC2.projectiles 0 = ([] : List Projectile) from by
      simp [swapRemove, cexC2]]
  have hPexit : projLoop
      { cexC2 with
          enemies := [{ enemyE2 with health := 90 }],
          money := 107,
          projectiles := [] } 1 0 =
      { cexC2 with
          enemies := [{ enemyE2 with health := 90 }],
          money := 107,
          projectiles := [] } :=
    projLoop_exit _ 1 0 (by norm_num)
  have hfinal : updateGame cexC2 1 =
      { cexC2 with
          enemies := [{ enemyE2 with health := 90 }],
          money := 107,
          projectiles := [] } := by
    rw [updateGame, hst1, hst2, hst3, hA, hB, hC, hP, hPexit]
  rw [hfinal]
  exact ⟨rfl, rfl, rfl, rfl⟩

theorem take_append_len (u v : List α) (k : ℕ) (h : u.length = k) :
    (u ++ v).take k = u := by
  rw [List.take_append_of_le_length (by omega), ← h, List.take_length]

theorem drop_append_len (u v : List α) (k : ℕ) (h : u.length = k) :
    (u ++ v).drop k = v := by
  rw [List.drop_append_of_le_length (by omega), ← h]
  simp

theorem length_take_lt {l : List α} {k : ℕ} (h : k < l.length) :
    (l.take k).length = k := by
  simp [List.length_take]
  omega

theorem getD_last_concat [Inhabited α] (l : List α) (a : α) :
    (l ++ [a]).getD ((l ++ [a]).length - 1) default = a := by
  have h : (l ++ [a]).length - 1 = l.length := by simp
  rw [h, List.getD_eq_getElem _ _ (by simp)]
  rw [List.getElem_append_right (le_refl l.length)]
  simp

theorem swapRemove_set_last [Inhabited α] (es : List α) (k : ℕ) (v : α)
    (hk : k < es.length) (hw : es.drop (k + 1) = []) :
    swapRemove (es.set k v) k = es.take k := by
  have hset : es.set k v = es.take k ++ [v] := by
    rw [List.set_eq_take_cons_drop v hk, hw]
  have hlenu : (es.take k).length = k := length_take_lt hk
  rw [swapRemove, hset, getD_last_concat]
  have hsetv : (es.take k ++ [v]).set k v = es.take k ++ [v] := by
    rw [List.set_eq_take_cons_drop v (by simp [hlenu])]
    congr 1
    · exact take_append_len _ _ k hlenu
    · congr 1
      exact List.drop_eq_nil_of_le (by simp [hlenu])
  rw [hsetv]
  exact List.dropLast_concat ..

theorem swapRemove_set_mid [Inhabited α] (es : List α) (k : ℕ) (v : α)
    (hk : k < es.length) (hw : es.drop (k + 1) ≠ []) :
    swapRemove (es.set k v) k =
      es.take k ++ (es.drop (k + 1)).getLast hw ::
        (es.drop (k + 1)).dropLast := by
  have hlenu : (es.take k).length = k := length_take_lt hk
  have hlast : (es.drop (k + 1)).dropLast ++ [(es.drop (k + 1)).getLast hw] =
      es.drop (k + 1) := List.dropLast_append_getLast hw
  have hset : es.set k v =
      (es.take k ++ v :: (es.drop (k + 1)).dropLast) ++
        [(es.drop (k + 1)).getLast hw] := by
    rw [List.set_eq_take_cons_drop v hk]
    conv => lhs; rw [← hlast]
    simp
  rw [swapRemove, hset, getD_last_concat]
  have hlen2 : ((es.take k ++ v :: (es.drop (k + 1)).dropLast) ++
      [(es.drop (k + 1)).getLast hw]).length =
      k + 1 + (es.drop (k + 1)).dropLast.length + 1 - 1 + 1 := by
    simp [hlenu]
    omega
  have hsetl : ((es.take k ++ v :: (es.drop (k + 1)).dropLast) ++
      [(es.drop (k + 1)).getLast hw]).set k ((es.drop (k + 1)).getLast hw) =
      es.take k ++ (es.drop (k + 1)).getLast hw ::
        ((es.drop (k + 1)).dropLast ++ [(es.drop (k + 1)).getLast hw]) := by
    rw [List.set_eq_take_cons_drop _ (by simp [hlenu])]
    congr 1
    · rw [List.append_assoc]
      exact take_append_len _ _ k hlenu
    · congr 1
      rw [List.append_assoc]
      rw [show es.take k ++ (v :: (es.drop (k + 1)).dropLast ++
        [(es.drop (k + 1)).getLast hw]) =
        (es.take k ++ [v]) ++ ((es.drop (k + 1)).dropLast ++
          [(es.drop (k + 1)).getLast hw]) from by simp]
      exact drop_append_len _ _ (k + 1) (by simp [hlenu])
  rw [hsetl]
  conv =>
    lhs
    rw [show es.take k ++ (es.drop (k + 1)).getLast hw ::
      ((es.drop (k + 1)).dropLast ++ [(es.drop (k + 1)).getLast hw]) =
      (es.take k ++ (es.drop (k + 1)).getLast hw ::
        (es.drop (k + 1)).dropLast) ++ [(es.drop (k + 1)).getLast hw] from by
      simp]
  exact List.dropLast_concat ..

theorem splashOne_inactive (tx ty dmg : ℝ) {e : Enemy}
    (hact : e.active = false) : splashOne tx ty dmg e = some e := by
  rw [splashOne, if_pos hact]

theorem splashOne_far (tx ty dmg : ℝ) {e : Enemy}
    (hact : ¬ e.active = false) (hd : ¬ dist e.x e.y tx ty < 50) :
    splashOne tx ty dmg e = some e := by
  rw [splashOne, if_neg hact, if_neg hd]

theorem splashOne_kill (tx ty dmg : ℝ) {e : Enemy}
    (hact : ¬ e.active = false) (hd : dist e.x e.y tx ty < 50)
    (hk : e.health - dmg * (1 - dist e.x e.y tx ty / 50) ≤ 0) :
    splashOne tx ty dmg e = none := by
  rw [splashOne, if_neg hact, if_pos hd, if_pos hk]

theorem splashOne_hit (tx ty dmg : ℝ) {e : Enemy}
    (hact : ¬ e.active = false) (hd : dist e.x e.y tx ty < 50)
    (hk : ¬ e.health - dmg * (1 - dist e.x e.y tx ty / 50) ≤ 0) :
    splashOne tx ty dmg e =
      some { e with health := e.health - dmg * (1 - dist e.x e.y tx ty / 50) } := by
  rw [splashOne, if_neg hact, if_pos hd, if_neg hk]

theorem splashKillSum_cons (tx ty dmg : ℝ) (e : Enemy) (t : List Enemy) :
    splashKillSum tx ty dmg (e :: t) =
      (if splashOne tx ty dmg e = none then e.value else 0) +
        splashKillSum tx ty dmg t := by
  simp [splashKillSum]

theorem splashKillSum_perm (tx ty dmg : ℝ) {l1 l2 : List Enemy}
    (h : List.Perm l1 l2) :
    splashKillSum tx ty dmg l1 = splashKillSum tx ty dmg l2 :=
  (h.map _).sum_eq

theorem splashKillSum_nil (tx ty dmg : ℝ) :
    splashKillSum tx ty dmg [] = 0 := rfl

theorem splashLoop_spec (es : List Enemy) (m : ℕ) (tx ty dmg : ℝ) (k : ℕ) :
    ∃ rest : List Enemy,
      splashLoop es m tx ty dmg k =
        (es.take k ++ rest, m + splashKillSum tx ty dmg (es.drop k)) ∧
      List.Perm rest ((es.drop k).filterMap (splashOne tx ty dmg)) := by
  induction es, m, tx, ty, dmg, k using splashLoop.induct with
  | case1 es m tx ty dmg k hk se hact ih =>
      have heq : splashLoop es m tx ty dmg k =
          splashLoop es m tx ty dmg (k + 1) := by
        rw [splashLoop, dif_pos hk, if_pos hact]
      have hdropk : es.drop k = se :: es.drop (k + 1) := by
        rw [List.drop_eq_getElem_cons hk, ← List.getD_eq_getElem es default hk]
      have htakek : es.take (k + 1) = es.take k ++ [se] := by
        rw [List.take_succ, List.getElem?_eq_getElem hk,
          ← List.getD_eq_getElem es default hk]
        rfl
      obtain ⟨rest', h1, h2⟩ := ih
      refine ⟨se :: rest', ?_, ?_⟩
      · rw [heq, h1, htakek, hdropk, splashKillSum_cons,
          splashOne_inactive tx ty dmg hact]
        simp
      · rw [hdropk]
        simp only [List.filterMap_cons, splashOne_inactive tx ty dmg hact]
        exact h2.cons se
  | case2 es m tx ty dmg k hk se hact hd r hkill ih =>
      have heq : splashLoop es m tx ty dmg k =
          splashLoop (swapRemove (es.set k r.1) k) (m + se.value)
            tx ty dmg k := by
        rw [splashLoop, dif_pos hk, if_neg hact, if_pos hd, if_pos hkill]
      have hdropk : es.drop k = se :: es.drop (k + 1) := by
        rw [List.drop_eq_getElem_cons hk, ← List.getD_eq_getElem es default hk]
      have hkillP : se.health - dmg * (1 - dist se.x se.y tx ty / 50) ≤ 0 :=
        of_decide_eq_true hkill
      have hone : splashOne tx ty dmg se = none :=
        splashOne_kill tx ty dmg hact hd hkillP
      by_cases hw : es.drop (k + 1) = []
      · have hes' : swapRemove (es.set k r.1) k = es.take k :=
          swapRemove_set_last es k r.1 hk hw
        obtain ⟨rest', h1, h2⟩ := ih
        rw [hes'] at h1 h2
        have htk : (es.take k).take k = es.take k :=
          List.take_of_length_le (by rw [length_take_lt hk])
        have hdk : (es.take k).drop k = [] :=
          List.drop_eq_nil_of_le (by rw [length_take_lt hk])
        rw [htk, hdk] at h1
        rw [hdk] at h2
        refine ⟨rest', ?_, ?_⟩
        · rw [heq, hes', h1, hdropk, splashKillSum_cons, hone, hw]
          simp [splashKillSum_nil]
        · rw [hdropk, hw]
          simp only [List.filterMap_cons, hone]
          simpa using h2
      · have hes' := swapRemove_set_mid es k r.1 hk hw
        obtain ⟨rest', h1, h2⟩ := ih
        rw [hes'] at h1 h2
        have hlenu := length_take_lt hk
        have htk : (es.take k ++ (es.drop (k + 1)).getLast hw ::
            (es.drop (k + 1)).dropLast).take k = es.take k :=
          take_append_len _ _ k hlenu
        have hdk : (es.take k ++ (es.drop (k + 1)).getLast hw ::
            (es.drop (k + 1)).dropLast).drop k =
            (es.drop (k + 1)).getLast hw :: (es.drop (k + 1)).dropLast :=
          drop_append_len _ _ k hlenu
        rw [htk, hdk] at h1
        rw [hdk] at h2
        have hpermw : List.Perm
            ((es.drop (k + 1)).getLast hw :: (es.drop (k + 1)).dropLast)
            (es.drop (k + 1)) := by
          have := (List.perm_append_singleton ((es.drop (k + 1)).getLast hw)
            ((es.drop (k + 1)).dropLast)).symm
          rwa [List.dropLast_append_getLast hw] at this
        refine ⟨rest', ?_, ?_⟩
        · rw [heq, hes', h1, splashKillSum_perm tx ty dmg hpermw, hdropk,
            splashKillSum_cons, hone]
          simp [Nat.add_assoc]
        · rw [hdropk]
          simp only [List.filterMap_cons, hone]
          exact h2.trans (hpermw.filterMap _)
  | case3 es m tx ty dmg k hk se hact hd r hkill ih =>
      have heq : splashLoop es m tx ty dmg k =
          splashLoop (es.set k r.1) m tx ty dmg (k + 1) := by
        rw [splashLoop, dif_pos hk, if_neg hact, if_pos hd, if_neg hkill]
      have hdropk : es.drop k = se :: es.drop (k + 1) := by
        rw [List.drop_eq_getElem_cons hk, ← List.getD_eq_getElem es default hk]
      have hkillP : ¬ se.health - dmg * (1 - dist se.x se.y tx ty / 50) ≤ 0 := by
        intro hcon
        exact hkill (decide_eq_true hcon)
      have hr1 : r.1 =
          { se with health := se.health - dmg * (1 - dist se.x se.y tx ty / 50) } :=
        rfl
      have hone : splashOne tx ty dmg se = some r.1 := by
        rw [splashOne_hit tx ty dmg hact hd hkillP, hr1]
      have hset : es.set k r.1 = es.take k ++ r.1 :: es.drop (k + 1) :=
        List.set_eq_take_cons_drop r.1 hk
      have htake' : (es.set k r.1).take (k + 1) = es.take k ++ [r.1] := by
        rw [hset, show k + 1 = (es.take k).length + 1 from by
          rw [length_take_lt hk], List.take_append]
        rfl
      have hdrop' : (es.set k r.1).drop (k + 1) = es.drop (k + 1) := by
        rw [hset, show k + 1 = (es.take k).length + 1 from by
          rw [length_take_lt hk], List.drop_append]
        rfl
      obtain ⟨rest', h1, h2⟩ := ih
      rw [htake', hdrop'] at h1
      rw [hdrop'] at h2
      refine ⟨r.1 :: rest', ?_, ?_⟩
      · rw [heq, h1, hdropk, splashKillSum_cons, hone]
        simp
      · rw [hdropk]
        simp only [List.filterMap_cons, hone]
        exact h2.cons r.1
  | case4 es m tx ty dmg k hk se hact hd ih =>
      have heq : splashLoop es m tx ty dmg k =
          splashLoop es m tx ty dmg (k + 1) := by
        rw [splashLoop, dif_pos hk, if_neg hact, if_neg hd]
      have hdropk : es.drop k = se :: es.drop (k + 1) := by
        rw [List.drop_eq_getElem_cons hk, ← List.getD_eq_getElem es default hk]
      have htakek : es.take (k + 1) = es.take k ++ [se] := by
        rw [List.take_succ, List.getElem?_eq_getElem hk,
          ← List.getD_eq_getElem es default hk]
        rfl
      obtain ⟨rest', h1, h2⟩ := ih
      refine ⟨se :: rest', ?_, ?_⟩
      · rw [heq, h1, htakek, hdropk, splashKillSum_cons,
          splashOne_far tx ty dmg hact hd]
        simp
      · rw [hdropk]
        simp only [List.filterMap_cons, splashOne_far tx ty dmg hact hd]
        exact h2.cons se
  | case5 es m tx ty dmg k hk =>
      refine ⟨[], ?_, ?_⟩
      · rw [splashLoop, dif_neg hk,
          List.take_of_length_le (le_of_not_lt hk),
          List.drop_eq_nil_of_le (le_of_not_lt hk)]
        simp [splashKillSum_nil]
      · simp [List.drop_eq_nil_of_le (le_of_not_lt hk)]

theorem hitScan_triangle (es : List Enemy) (m : ℕ) (p : Projectile) (j : ℕ) :
    p.tower_type = TowerType.Triangle →
    (∃ j', j ≤ j' ∧ ∃ h : j' < es.length,
      (es.getD j' default).active = true ∧
      dist (es.getD j' default).x (es.getD j' default).y p.target_x
        p.target_y < (es.getD j' default).radius) →
    hitScan es m p j = splashLoop es m p.target_x p.target_y p.damage 0 := by
  induction es, m, p, j using hitScan.induct with
  | case1 es m p j hj enemy hact ih =>
      intro htri hmatch
      have heq : hitScan es m p j = hitScan es m p (j + 1) := by
        rw [hitScan, dif_pos hj, if_pos hact]
      rw [heq]
      refine ih htri ?_
      obtain ⟨j', hle, hlt, hact', hd'⟩ := hmatch
      refine ⟨j', ?_, hlt, hact', hd'⟩
      rcases Nat.eq_or_lt_of_le hle with rfl | h
      · have hfalse : (es.getD j default).active = false := hact
        rw [hact'] at hfalse
        cases hfalse
      · omega
  | case2 es m p j hj enemy hact hd htri2 =>
      intro htri hmatch
      rw [hitScan, dif_pos hj, if_neg hact, if_pos hd, if_pos htri2]
  | case3 es m p j hj enemy hact hd htri2 hsq r hkill ih =>
      intro htri hmatch
      exact absurd htri htri2
  | case4 es m p j hj enemy hact hd htri2 hsq r hkill =>
      intro htri hmatch
      exact absurd htri htri2
  | case5 es m p j hj enemy hact hd htri2 hsq r hkill ih =>
      intro htri hmatch
      exact absurd htri htri2
  | case6 es m p j hj enemy hact hd htri2 hsq r hkill =>
      intro htri hmatch
      exact absurd htri htri2
  | case7 es m p j hj enemy hact hd ih =>
      intro htri hmatch
      have heq : hitScan es m p j = hitScan es m p (j + 1) := by
        rw [hitScan, dif_pos hj, if_neg hact, if_neg hd]
      rw [heq]
      refine ih htri ?_
      obtain ⟨j', hle, hlt, hact', hd'⟩ := hmatch
      refine ⟨j', ?_, hlt, hact', hd'⟩
      rcases Nat.eq_or_lt_of_le hle with rfl | h
      · exact absurd hd' hd
      · omega
  | case8 es m p j hj =>
      intro htri hmatch
      obtain ⟨j', hle, hlt, -, -⟩ := hmatch
      omega

/-- C7: a Triangle-tower projectile that resolves as a hit applies the
splash to the whole enemy collection: up to the storage permutation
introduced by swap-removal, the surviving enemies are exactly the image
of the per-enemy splash effect `splashOne` (an active enemy at distance
d < 50 from the impact point takes exactly `damage * (1 - d / 50)` and is
gone when its health falls to 0 or below; an enemy at d ≥ 50 or inactive
is untouched), and money grows by exactly the summed values of the
enemies the splash kills. -/
theorem triangle_splash (es : List Enemy) (m : ℕ) (p : Projectile)
    (htri : p.tower_type = TowerType.Triangle)
    (hmatch : ∃ j, ∃ hj : j < es.length,
      (es.getD j default).active = true ∧
      dist (es.getD j default).x (es.getD j default).y p.target_x
        p.target_y < (es.getD j default).radius) :
    ∃ rest : List Enemy,
      hitScan es m p 0 =
        (rest, m + splashKillSum p.target_x p.target_y p.damage es) ∧
      List.Perm rest
        (es.filterMap (splashOne p.target_x p.target_y p.damage)) := by
  obtain ⟨j, hj, ha, hd⟩ := hmatch
  rw [hitScan_triangle es m p 0 htri ⟨j, Nat.zero_le j, hj, ha, hd⟩]
  obtain ⟨rest, h1, h2⟩ := splashLoop_spec es m p.target_x p.target_y p.damage 0
  exact ⟨rest, by simpa using h1, by simpa using h2⟩

/-- Active enemy at the C7 impact point. -/
def enemyC7 : Enemy :=
  { x := 100, y := 100, radius := 15, health := 20, max_health := 20,
    speed := 0, value := 11, active := true, path_index := 0 }

/-- Triangle projectile of damage 15 arrived at (100, 100). -/
def projC7 : Projectile :=
  { x := 100, y := 100, target_x := 100, target_y := 100, speed := 300,
    damage := 15, active := true, tower_type := TowerType.Triangle }

theorem triangle_splash_witness :
    projC7.tower_type = TowerType.Triangle ∧
    (∃ j, ∃ hj : j < [enemyC7].length,
      ([enemyC7].getD j default).active = true ∧
      dist ([enemyC7].getD j default).x ([enemyC7].getD j default).y
        projC7.target_x projC7.target_y < ([enemyC7].getD j default).radius) ∧
    (∃ rest : List Enemy,
      hitScan [enemyC7] 100 projC7 0 =
        (rest, 100 + splashKillSum projC7.target_x projC7.target_y
          projC7.damage [enemyC7]) ∧
      List.Perm rest
        ([enemyC7].filterMap
          (splashOne projC7.target_x projC7.target_y projC7.damage))) := by
  have hh : ∃ j, ∃ hj : j < [enemyC7].length,
      ([enemyC7].getD j default).active = true ∧
      dist ([enemyC7].getD j default).x ([enemyC7].getD j default).y
        projC7.target_x projC7.target_y < ([enemyC7].getD j default).radius := by
    refine ⟨0, by norm_num, rfl, ?_⟩
    rw [show ([enemyC7].getD 0 default) = enemyC7 from rfl,
      show dist enemyC7.x enemyC7.y projC7.target_x projC7.target_y = 0 from
        dist_eval le_rfl (by norm_num [enemyC7, projC7])]
    norm_num [enemyC7]
  exact ⟨rfl, hh, triangle_splash [enemyC7] 100 projC7 rfl hh⟩

theorem addTower_affordability_witness :
    GameData.init.money < (Tower.init 0 0 TowerType.Pentagon).cost ∧
    GameData.init.addTower 0 0 TowerType.Pentagon = (GameData.init, false) :=
  ⟨by norm_num [GameData.init, Tower.init],
   (addTower_affordability GameData.init 0 0 TowerType.Pentagon).1
     (by norm_num [GameData.init, Tower.init])⟩

end

end TD
